import Mathlib

/-!
# Error classification, retry and propagation checks of `src/include/nccl/checks.h`

A shallow embedding of the check combinators of `checks.h` and theorems about them.

Every combinator of the header is a statement-like preprocessor form.  It is
embedded as a function from the program state before the statement to a
control outcome (fall through, `return v;`, `goto label;`) and the state after.
The wrapped expressions (`statement`, `call`, `a`) are expressions with side
effects: functions from the state to a value and a new state.
-/

namespace NcclChecks

/-! ## Data model -/

/-- Values of the C enumeration `ncclResult_t`. -/
abbrev ncclResult_t := Int

/-- The three enumerators of `ncclResult_t` that `checks.h` names.  The enumeration
is declared in `nccl.h`, which is not among the sources, so its numbering is a
parameter of every combinator that mentions an enumerator. -/
structure ResultCodes where
  ncclSuccess : ncclResult_t
  ncclInProgress : ncclResult_t
  ncclSystemError : ncclResult_t
  deriving DecidableEq, Repr

/-- The three `errno` constants of `<errno.h>` that `SYSCHECKSYNC` names; their
values are platform-defined and therefore a parameter. -/
structure ErrnoCodes where
  EINTR : Int
  EWOULDBLOCK : Int
  EAGAIN : Int
  deriving DecidableEq, Repr

/-- The call site of a check: the values of `__FILE__` and `__LINE__` there. -/
structure SourceLoc where
  file : String
  line : Nat
  deriving DecidableEq, Repr

/-- One argument handed to the logging backend after the format string. -/
inductive LogArg
  /-- a `%s` argument that is a string, such as `__FILE__` -/
  | str (s : String)
  /-- a `%d` argument -/
  | int (v : Int)
  /-- a `%s` argument computed as `strerror(errnum)` -/
  | strerror (errnum : Int)
  deriving DecidableEq, Repr

/-- The subsystem mask of an `INFO` line. -/
inductive DebugSubsys
  | NCCL_ALL
  | NCCL_INIT
  deriving DecidableEq, Repr

/-- One line handed to the logging backend of `debug.h`: `WARN(fmt, args...)` or
`INFO(flags, fmt, args...)`. -/
inductive LogLine
  | WARN (fmt : String) (args : List LogArg)
  | INFO (flags : DebugSubsys) (fmt : String) (args : List LogArg)
  deriving DecidableEq, Repr

/-- Whether a log line was emitted through `WARN`. -/
def LogLine.isWarn : LogLine → Bool
  | .WARN _ _ => true
  | .INFO _ _ _ => false

/-- Whether a log line was emitted through `INFO`. -/
def LogLine.isInfo : LogLine → Bool
  | .WARN _ _ => false
  | .INFO _ _ _ => true

/-- The program state the checks read and write.  `errno`, `RES` and `argsRet` are
program variables; `log`, `evals`, `retStores` and `cleanups` are histories kept
for stating properties. -/
structure State where
  /-- the thread-local `errno` -/
  errno : Int
  /-- the caller-provided result variable `RES` of the goto-style checks -/
  RES : ncclResult_t
  /-- the field `(args)->ret` of the completion context -/
  argsRet : ncclResult_t
  /-- every line handed to the logging backend, oldest first -/
  log : List LogLine
  /-- identifiers of the wrapped expressions evaluated so far, oldest first -/
  evals : List Nat
  /-- every value stored to `(args)->ret`, oldest first -/
  retStores : List ncclResult_t
  /-- how many times control reached the cleanup label -/
  cleanups : Nat
  deriving DecidableEq, Repr

/-- Hand one line to the logging backend. -/
def State.emit (s : State) (l : LogLine) : State :=
  { s with log := s.log ++ [l] }

/-- The assignment `RES = v;`. -/
def State.setRES (s : State) (v : ncclResult_t) : State :=
  { s with RES := v }

/-- The assignment `(args)->ret = v;`. -/
def State.storeRet (s : State) (v : ncclResult_t) : State :=
  { s with argsRet := v, retStores := s.retStores ++ [v] }

/-- How a statement hands control on: it falls through to the next statement,
executes `return v;` in the enclosing function, or executes `goto label;`.
`ρ` is the return type of the enclosing function and `L` the type of the labels it
declares (`Empty` for a function without labels). -/
inductive Ctl (ρ L : Type)
  | next
  | ret (v : ρ)
  | goto (label : L)
  deriving DecidableEq, Repr

/-- An expression with side effects that yields a value of type `α`. -/
abbrev Expr (α : Type) := State → α × State

/-- A statement inside a function whose return type is `ρ` and whose labels are `L`. -/
abbrev Stmt (ρ L : Type) := State → Ctl ρ L × State

/-! ## The checks of `checks.h` -/

/-- `SYSCHECKSYNC(statement, name, retval)` (lines 21-28), a `do { } while(true)`
loop.  The first argument bounds the number of iterations; `none` means the loop
is still running when the bound is used up.  The result is the final `retval`
and the state at the `break`. -/
def SYSCHECKSYNC (E : ErrnoCodes) (statement : Expr Int) (name : String) :
    Nat → State → Option (Int × State)
  | 0, _ => none
  | fuel + 1, s =>
    let (retval, s1) := statement s
    if retval = -1 ∧ (s1.errno = E.EINTR ∨ s1.errno = E.EWOULDBLOCK ∨ s1.errno = E.EAGAIN) then
      SYSCHECKSYNC E statement name fuel
        (s1.emit (.INFO .NCCL_ALL ("Call to " ++ name ++ " returned %s, retrying")
          [.strerror s1.errno]))
    else
      some (retval, s1)

/-- `SYSCHECK(statement, name)` (lines 12-19). -/
def SYSCHECK {L : Type} (E : ErrnoCodes) (K : ResultCodes) (statement : Expr Int)
    (name : String) (fuel : Nat) (s : State) : Option (Ctl ncclResult_t L × State) :=
  match SYSCHECKSYNC E statement name fuel s with
  | none => none
  | some (retval, s1) =>
    if retval = -1 then
      some (.ret K.ncclSystemError,
        s1.emit (.WARN ("Call to " ++ name ++ " failed: %s") [.strerror s1.errno]))
    else
      some (.next, s1)

/-- `SYSCHECKGOTO(statement, name, RES, label)` (lines 30-38). -/
def SYSCHECKGOTO {ρ L : Type} (E : ErrnoCodes) (K : ResultCodes) (statement : Expr Int)
    (name : String) (label : L) (fuel : Nat) (s : State) : Option (Ctl ρ L × State) :=
  match SYSCHECKSYNC E statement name fuel s with
  | none => none
  | some (retval, s1) =>
    if retval = -1 then
      some (.goto label,
        (s1.emit (.WARN ("Call to " ++ name ++ " failed: %s") [.strerror s1.errno])).setRES
          K.ncclSystemError)
    else
      some (.next, s1)

/-- `PTHREADCHECK(statement, name)` (lines 41-47). -/
def PTHREADCHECK {L : Type} (K : ResultCodes) (statement : Expr Int) (name : String) :
    Stmt ncclResult_t L := fun s =>
  let (retval, s1) := statement s
  if retval ≠ 0 then
    (.ret K.ncclSystemError,
      s1.emit (.WARN ("Call to " ++ name ++ " failed: %s") [.strerror retval]))
  else
    (.next, s1)

/-- `PTHREADCHECKGOTO(statement, name, RES, label)` (lines 49-56). -/
def PTHREADCHECKGOTO {ρ L : Type} (K : ResultCodes) (statement : Expr Int) (name : String)
    (label : L) : Stmt ρ L := fun s =>
  let (retval, s1) := statement s
  if retval ≠ 0 then
    (.goto label,
      (s1.emit (.WARN ("Call to " ++ name ++ " failed: %s") [.strerror retval])).setRES
        K.ncclSystemError)
  else
    (.next, s1)

/-- The arguments of the back-trace line of the assertion checks:
`__FILE__, __LINE__, code, strerror(errno)`. -/
def traceErrnoArgs (loc : SourceLoc) (code : ncclResult_t) (errno : Int) : List LogArg :=
  [.str loc.file, .int loc.line, .int code, .strerror errno]

/-- `NEQCHECK(statement, value)` (lines 58-64). -/
def NEQCHECK {L : Type} (K : ResultCodes) (loc : SourceLoc) (statement : Expr Int)
    (value : Int) : Stmt ncclResult_t L := fun s =>
  let (v, s1) := statement s
  if v ≠ value then
    (.ret K.ncclSystemError,
      s1.emit (.INFO .NCCL_ALL "%s:%d -> %d (%s)"
        (traceErrnoArgs loc K.ncclSystemError s1.errno)))
  else
    (.next, s1)

/-- `NEQCHECKGOTO(statement, value, RES, label)` (lines 66-73): `RES` is assigned
before the line is logged, and the logged code is read back from `RES`. -/
def NEQCHECKGOTO {ρ L : Type} (K : ResultCodes) (loc : SourceLoc) (statement : Expr Int)
    (value : Int) (label : L) : Stmt ρ L := fun s =>
  let (v, s1) := statement s
  if v ≠ value then
    let s2 := s1.setRES K.ncclSystemError
    (.goto label,
      s2.emit (.INFO .NCCL_ALL "%s:%d -> %d (%s)" (traceErrnoArgs loc s2.RES s2.errno)))
  else
    (.next, s1)

/-- `EQCHECK(statement, value)` (lines 75-81). -/
def EQCHECK {L : Type} (K : ResultCodes) (loc : SourceLoc) (statement : Expr Int)
    (value : Int) : Stmt ncclResult_t L := fun s =>
  let (v, s1) := statement s
  if v = value then
    (.ret K.ncclSystemError,
      s1.emit (.INFO .NCCL_ALL "%s:%d -> %d (%s)"
        (traceErrnoArgs loc K.ncclSystemError s1.errno)))
  else
    (.next, s1)

/-- `EQCHECKGOTO(statement, value, RES, label)` (lines 83-90). -/
def EQCHECKGOTO {ρ L : Type} (K : ResultCodes) (loc : SourceLoc) (statement : Expr Int)
    (value : Int) (label : L) : Stmt ρ L := fun s =>
  let (v, s1) := statement s
  if v = value then
    let s2 := s1.setRES K.ncclSystemError
    (.goto label,
      s2.emit (.INFO .NCCL_ALL "%s:%d -> %d (%s)" (traceErrnoArgs loc s2.RES s2.errno)))
  else
    (.next, s1)

/-- The arguments of the back-trace line of the propagation checks:
`__FILE__, __LINE__, RES`. -/
def traceArgs (loc : SourceLoc) (code : ncclResult_t) : List LogArg :=
  [.str loc.file, .int loc.line, .int code]

/-- `NCCLCHECK(call)` (lines 93-100).  The `RES` declared inside the form is a
fresh local of its block, not the caller's variable. -/
def NCCLCHECK {L : Type} (K : ResultCodes) (loc : SourceLoc) (call : Expr ncclResult_t) :
    Stmt ncclResult_t L := fun s =>
  let (RES, s1) := call s
  if RES ≠ K.ncclSuccess ∧ RES ≠ K.ncclInProgress then
    (.ret RES, s1.emit (.INFO .NCCL_ALL "%s:%d -> %d" (traceArgs loc RES)))
  else
    (.next, s1)

/-- `NCCLCHECKGOTO(call, RES, label)` (lines 102-109). -/
def NCCLCHECKGOTO {ρ L : Type} (K : ResultCodes) (loc : SourceLoc)
    (call : Expr ncclResult_t) (label : L) : Stmt ρ L := fun s =>
  let (r, s1) := call s
  let s2 := s1.setRES r
  if s2.RES ≠ K.ncclSuccess ∧ s2.RES ≠ K.ncclInProgress then
    (.goto label, s2.emit (.INFO .NCCL_ALL "%s:%d -> %d" (traceArgs loc s2.RES)))
  else
    (.next, s2)

/-- `NCCLCHECKTHREAD(a, args)` (lines 111-116).  The enclosing function returns the
handle `args`; the handle is an address, modelled as a natural number. -/
def NCCLCHECKTHREAD {L : Type} (K : ResultCodes) (loc : SourceLoc) (a : Expr ncclResult_t)
    (args : Nat) : Stmt Nat L := fun s =>
  let (r, s1) := a s
  let s2 := s1.storeRet r
  if s2.argsRet ≠ K.ncclSuccess ∧ s2.argsRet ≠ K.ncclInProgress then
    (.ret args,
      s2.emit (.INFO .NCCL_INIT "%s:%d -> %d [Async thread]" (traceArgs loc s2.argsRet)))
  else
    (.next, s2)

/-! ## Function bodies built from the checks -/

/-- Sequential execution `st1; st2; ...` of the statements of a block: the first
statement that does not fall through decides how the block hands control on. -/
def runStmts {ρ L : Type} : List (Stmt ρ L) → State → Ctl ρ L × State
  | [], s => (.next, s)
  | st :: rest, s =>
    match st s with
    | (.next, s1) => runStmts rest s1
    | (.ret v, s1) => (.ret v, s1)
    | (.goto l, s1) => (.goto l, s1)

/-- A sub-operation that yields the result code `r`; evaluating it records the
identifier `i` in the evaluation history. -/
def subOp (i : Nat) (r : ncclResult_t) : Expr ncclResult_t := fun s =>
  (r, { s with evals := s.evals ++ [i] })

/-- A call of a function that declares no label and whose body is the block `body`
followed by `return final;`. -/
def callFn {ρ : Type} (body : List (Stmt ρ Empty)) (final : ρ) : Expr ρ := fun s =>
  match runStmts body s with
  | (.next, s1) => (final, s1)
  | (.ret v, s1) => (v, s1)
  | (.goto l, _) => nomatch l

/-- The block `NCCLCHECK(op_k()); NCCLCHECK(op_(k+1)()); ...`, one check per entry of
the list of sub-results; the check of sub-operation `j` stands at call site `site j`. -/
def ncclCheckSeq {L : Type} (K : ResultCodes) (site : Nat → SourceLoc) :
    Nat → List ncclResult_t → List (Stmt ncclResult_t L)
  | _, [] => []
  | k, r :: rs => NCCLCHECK K (site k) (subOp k r) :: ncclCheckSeq K site (k + 1) rs

/-- The back-trace line `INFO(NCCL_ALL,"%s:%d -> %d", __FILE__, __LINE__, RES)` as it
is logged from call site `loc` with code `code`. -/
def traceLine (loc : SourceLoc) (code : ncclResult_t) : LogLine :=
  .INFO .NCCL_ALL "%s:%d -> %d" [.str loc.file, .int loc.line, .int code]

/-- The block `NCCLCHECKGOTO(op_k(), RES, label); NCCLCHECKGOTO(op_(k+1)(), RES, label);
...` with one shared result variable and one label. -/
def ncclCheckGotoSeq {ρ L : Type} (K : ResultCodes) (site : Nat → SourceLoc) (label : L) :
    Nat → List ncclResult_t → List (Stmt ρ L)
  | _, [] => []
  | k, r :: rs =>
    NCCLCHECKGOTO K (site k) (subOp k r) label :: ncclCheckGotoSeq K site label (k + 1) rs

/-- A call of a function that declares one label, placed after the last step:
`body; label: <cleanup>; return RES;`.  Control reaches the cleanup section by
falling out of the body or by a `goto`; reaching it is counted in `cleanups`. -/
def callFnCleanup (body : List (Stmt ncclResult_t Unit)) : Expr ncclResult_t := fun s =>
  match runStmts body s with
  | (.next, s1) => (s1.RES, { s1 with cleanups := s1.cleanups + 1 })
  | (.goto (), s1) => (s1.RES, { s1 with cleanups := s1.cleanups + 1 })
  | (.ret v, s1) => (v, s1)

/-- The block `NCCLCHECKTHREAD(op_k(), args); NCCLCHECKTHREAD(op_(k+1)(), args); ...`
of a worker over one completion context `args`. -/
def ncclCheckThreadSeq {L : Type} (K : ResultCodes) (site : Nat → SourceLoc) (args : Nat) :
    Nat → List ncclResult_t → List (Stmt Nat L)
  | _, [] => []
  | k, r :: rs =>
    NCCLCHECKTHREAD K (site k) (subOp k r) args :: ncclCheckThreadSeq K site args (k + 1) rs

/-- The line `INFO(NCCL_INIT,"%s:%d -> %d [Async thread]", __FILE__, __LINE__,
(args)->ret)` as it is logged from call site `loc` with code `code`. -/
def asyncLine (loc : SourceLoc) (code : ncclResult_t) : LogLine :=
  .INFO .NCCL_INIT "%s:%d -> %d [Async thread]" [.str loc.file, .int loc.line, .int code]

/-- The line `INFO(NCCL_ALL,"%s:%d -> %d (%s)", __FILE__, __LINE__, code,
strerror(errno))` of the assertion checks as it is logged from call site `loc`. -/
def assertLine (loc : SourceLoc) (code : ncclResult_t) (errno : Int) : LogLine :=
  .INFO .NCCL_ALL "%s:%d -> %d (%s)"
    [.str loc.file, .int loc.line, .int code, .strerror errno]

/-- The call `f_d()` of the outermost of `d` functions `f_1, ..., f_d` nested around a
sub-operation `f_0 = innermost`: the body of `f_(k+1)` is
`NCCLCHECK(f_k()); return final k;` and its check stands at call site `site k`. -/
def nested (K : ResultCodes) (site : Nat → SourceLoc) (final : Nat → ncclResult_t)
    (innermost : Expr ncclResult_t) : Nat → Expr ncclResult_t
  | 0 => innermost
  | d + 1 => callFn [NCCLCHECK K (site d) (nested K site final innermost d)] (final d)

/-- A state with empty histories, used as the starting point of worked examples. -/
def State.start : State :=
  { errno := 0, RES := 0, argsRet := 0, log := [], evals := [], retStores := [], cleanups := 0 }

/-- What one evaluation of a wrapped system call produces: its return value and the
value it leaves in `errno`. -/
structure Outcome where
  retval : Int
  errno : Int
  deriving DecidableEq, Repr

/-- A wrapped statement whose successive evaluations produce the outcomes
`outs 0, outs 1, ...`: the evaluation made when `k` evaluations are on record
returns `(outs k).retval`, leaves `(outs k).errno` in `errno`, and is recorded. -/
def scripted (outs : Nat → Outcome) : Expr Int := fun s =>
  ((outs s.evals.length).retval,
    { s with errno := (outs s.evals.length).errno, evals := s.evals ++ [s.evals.length] })

/-- An outcome of the form (return `-1`, `errno` in {`EINTR`, `EWOULDBLOCK`, `EAGAIN`}). -/
def retryOutcome (E : ErrnoCodes) (o : Outcome) : Prop :=
  o.retval = -1 ∧ (o.errno = E.EINTR ∨ o.errno = E.EWOULDBLOCK ∨ o.errno = E.EAGAIN)

instance (E : ErrnoCodes) (o : Outcome) : Decidable (retryOutcome E o) := by
  unfold retryOutcome; infer_instance

/-- The retry notice `INFO(NCCL_ALL,"Call to " name " returned %s, retrying",
strerror(errno))` as it is logged for the operation `name` with `errno = e`. -/
def retryLine (name : String) (e : Int) : LogLine :=
  .INFO .NCCL_ALL ("Call to " ++ name ++ " returned %s, retrying") [.strerror e]

/-- The warning `WARN("Call to " name " failed: %s", strerror(e))`. -/
def failedLine (name : String) (e : Int) : LogLine :=
  .WARN ("Call to " ++ name ++ " failed: %s") [.strerror e]

/-! ## Auxiliary lemmas -/

theorem SYSCHECKSYNC_scripted (E : ErrnoCodes) (name : String) (outs : Nat → Outcome) :
    ∀ (n fuel : Nat) (s : State), n < fuel →
      (∀ k, s.evals.length ≤ k → k < s.evals.length + n → retryOutcome E (outs k)) →
      ¬ retryOutcome E (outs (s.evals.length + n)) →
      SYSCHECKSYNC E (scripted outs) name fuel s =
        some ((outs (s.evals.length + n)).retval,
          { s with errno := (outs (s.evals.length + n)).errno,
                   evals := s.evals ++ List.range' s.evals.length (n + 1),
                   log := s.log ++
                     (List.range' s.evals.length n).map fun k => retryLine name (outs k).errno })
  | _, 0, _, hf, _, _ => absurd hf (Nat.not_lt_zero _)
  | 0, fuel + 1, s, _, _, hlast => by
    have hl : ¬ ((outs s.evals.length).retval = -1 ∧ ((outs s.evals.length).errno = E.EINTR ∨
        (outs s.evals.length).errno = E.EWOULDBLOCK ∨ (outs s.evals.length).errno = E.EAGAIN)) := by
      simpa [retryOutcome] using hlast
    simp only [SYSCHECKSYNC, scripted, if_neg hl]
    simp
  | n + 1, fuel + 1, s, hf, hretry, hlast => by
    have hl : (outs s.evals.length).retval = -1 ∧ ((outs s.evals.length).errno = E.EINTR ∨
        (outs s.evals.length).errno = E.EWOULDBLOCK ∨ (outs s.evals.length).errno = E.EAGAIN) :=
      hretry s.evals.length (Nat.le_refl _) (by omega)
    simp only [SYSCHECKSYNC, scripted, if_pos hl]
    have ih := SYSCHECKSYNC_scripted E name outs n fuel
      (State.emit { s with errno := (outs s.evals.length).errno,
                           evals := s.evals ++ [s.evals.length] }
        (.INFO .NCCL_ALL ("Call to " ++ name ++ " returned %s, retrying")
          [.strerror (outs s.evals.length).errno]))
      (by omega)
      (by
        intro k hk1 hk2
        simp only [State.emit, List.length_append, List.length_singleton] at hk1 hk2
        exact hretry k (by omega) (by omega))
      (by
        simp only [State.emit, List.length_append, List.length_singleton]
        have : s.evals.length + 1 + n = s.evals.length + (n + 1) := by omega
        rw [this]
        exact hlast)
    rw [ih]
    simp only [State.emit, List.length_append, List.length_singleton]
    have e1 : s.evals.length + 1 + n = s.evals.length + (n + 1) := by omega
    rw [e1]
    simp [List.range'_succ, retryLine]


theorem NCCLCHECK_subOp_ok {L : Type} (K : ResultCodes) (loc : SourceLoc) (i : Nat) (r : ncclResult_t)
    (s : State) (h : r = K.ncclSuccess ∨ r = K.ncclInProgress) :
    NCCLCHECK K loc (subOp i r) s = ((.next : Ctl ncclResult_t L),
      { s with evals := s.evals ++ [i] }) := by
  have hn : ¬ (r ≠ K.ncclSuccess ∧ r ≠ K.ncclInProgress) := by
    rcases h with h | h <;> simp [h]
  simp only [NCCLCHECK, subOp, if_neg hn]

theorem NCCLCHECK_subOp_fail {L : Type} (K : ResultCodes) (loc : SourceLoc) (i : Nat) (r : ncclResult_t)
    (s : State) (h : r ≠ K.ncclSuccess ∧ r ≠ K.ncclInProgress) :
    NCCLCHECK K loc (subOp i r) s =
      ((.ret r : Ctl ncclResult_t L),
        { s with evals := s.evals ++ [i], log := s.log ++ [traceLine loc r] }) := by
  simp only [NCCLCHECK, subOp, if_pos h, State.emit, traceArgs, traceLine]

theorem runStmts_ncclCheckSeq_fail {L : Type} (K : ResultCodes) (site : Nat → SourceLoc)
    (pre post : List ncclResult_t) (c : ncclResult_t)
    (hpre : ∀ r ∈ pre, r = K.ncclSuccess ∨ r = K.ncclInProgress)
    (hc : c ≠ K.ncclSuccess ∧ c ≠ K.ncclInProgress) (k : Nat) (s : State) :
    runStmts (ncclCheckSeq K site k (pre ++ c :: post)) s =
      ((.ret c : Ctl ncclResult_t L),
        { s with evals := s.evals ++ List.range' k (pre.length + 1),
                 log := s.log ++ [traceLine (site (k + pre.length)) c] }) := by
  induction pre generalizing k s with
  | nil =>
    simp [ncclCheckSeq, runStmts, NCCLCHECK_subOp_fail K (site k) k c s hc]
  | cons r rs ih =>
    have hr := hpre r (List.mem_cons_self r rs)
    have hrs : ∀ x ∈ rs, x = K.ncclSuccess ∨ x = K.ncclInProgress :=
      fun x hx => hpre x (List.mem_cons_of_mem r hx)
    rw [List.cons_append]
    simp only [ncclCheckSeq, runStmts, NCCLCHECK_subOp_ok K (site k) k r s hr]
    rw [ih hrs (k + 1)]
    simp [List.range'_succ, Nat.add_assoc, Nat.add_comm 1]

theorem runStmts_ncclCheckSeq_ok {L : Type} (K : ResultCodes) (site : Nat → SourceLoc)
    (rs : List ncclResult_t) (hrs : ∀ r ∈ rs, r = K.ncclSuccess ∨ r = K.ncclInProgress)
    (k : Nat) (s : State) :
    runStmts (ncclCheckSeq K site k rs) s =
      ((.next : Ctl ncclResult_t L),
        { s with evals := s.evals ++ List.range' k rs.length }) := by
  induction rs generalizing k s with
  | nil => simp [ncclCheckSeq, runStmts]
  | cons r rs ih =>
    have hr := hrs r (List.mem_cons_self r rs)
    have hrs1 : ∀ x ∈ rs, x = K.ncclSuccess ∨ x = K.ncclInProgress :=
      fun x hx => hrs x (List.mem_cons_of_mem r hx)
    simp only [ncclCheckSeq, runStmts, NCCLCHECK_subOp_ok K (site k) k r s hr]
    rw [ih hrs1 (k + 1)]
    simp [List.range'_succ]

/-- A list splits at a valid position into the entries before it, the entry there
and the entries after it. -/
theorem split_at_position {α : Type} (l : List α) (i : Nat) (c : α) (h : l[i]? = some c) :
    l = l.take i ++ c :: l.drop (i + 1) ∧ (l.take i).length = i := by
  obtain ⟨hi, hc⟩ := List.getElem?_eq_some.mp h
  refine ⟨?_, by simp [Nat.le_of_lt hi]⟩
  rw [← hc, List.getElem_cons_drop, List.take_append_drop]

theorem all_before_position {α : Type} (P : α → Prop) (l : List α) (i : Nat)
    (h : ∀ j r, j < i → l[j]? = some r → P r) : ∀ r ∈ l.take i, P r := by
  intro r hr
  obtain ⟨j, hj, hjr⟩ := List.getElem_of_mem hr
  have hji : j < i := by
    have := List.length_take_le i l
    omega
  have hjl : j < l.length := by
    have := List.length_take_le' i l
    omega
  refine h j r hji ?_
  rw [← hjr, List.getElem_take]
  exact List.getElem?_eq_getElem hjl

theorem NCCLCHECKGOTO_subOp_ok {ρ L : Type} (K : ResultCodes) (loc : SourceLoc) (label : L)
    (i : Nat) (r : ncclResult_t) (s : State) (h : r = K.ncclSuccess ∨ r = K.ncclInProgress) :
    NCCLCHECKGOTO K loc (subOp i r) label s =
      ((.next : Ctl ρ L), { s with evals := s.evals ++ [i], RES := r }) := by
  have hn : ¬ (r ≠ K.ncclSuccess ∧ r ≠ K.ncclInProgress) := by
    rcases h with h | h <;> simp [h]
  simp only [NCCLCHECKGOTO, subOp, State.setRES, if_neg hn]

theorem NCCLCHECKGOTO_subOp_fail {ρ L : Type} (K : ResultCodes) (loc : SourceLoc) (label : L)
    (i : Nat) (r : ncclResult_t) (s : State) (h : r ≠ K.ncclSuccess ∧ r ≠ K.ncclInProgress) :
    NCCLCHECKGOTO K loc (subOp i r) label s =
      ((.goto label : Ctl ρ L),
        { s with evals := s.evals ++ [i], RES := r, log := s.log ++ [traceLine loc r] }) := by
  simp only [NCCLCHECKGOTO, subOp, State.setRES, if_pos h, State.emit, traceArgs, traceLine]

theorem runStmts_ncclCheckGotoSeq_fail {ρ L : Type} (K : ResultCodes) (site : Nat → SourceLoc)
    (label : L) (pre post : List ncclResult_t) (c : ncclResult_t)
    (hpre : ∀ r ∈ pre, r = K.ncclSuccess ∨ r = K.ncclInProgress)
    (hc : c ≠ K.ncclSuccess ∧ c ≠ K.ncclInProgress) (k : Nat) (s : State) :
    runStmts (ncclCheckGotoSeq K site label k (pre ++ c :: post)) s =
      ((.goto label : Ctl ρ L),
        { s with evals := s.evals ++ List.range' k (pre.length + 1),
                 RES := c,
                 log := s.log ++ [traceLine (site (k + pre.length)) c] }) := by
  induction pre generalizing k s with
  | nil =>
    simp [ncclCheckGotoSeq, runStmts, NCCLCHECKGOTO_subOp_fail K (site k) label k c s hc]
  | cons r rs ih =>
    have hr := hpre r (List.mem_cons_self r rs)
    have hrs : ∀ x ∈ rs, x = K.ncclSuccess ∨ x = K.ncclInProgress :=
      fun x hx => hpre x (List.mem_cons_of_mem r hx)
    rw [List.cons_append]
    simp only [ncclCheckGotoSeq, runStmts, NCCLCHECKGOTO_subOp_ok K (site k) label k r s hr]
    rw [ih hrs (k + 1)]
    simp [List.range'_succ, Nat.add_assoc, Nat.add_comm 1]

theorem runStmts_ncclCheckGotoSeq_cleanups {ρ L : Type} (K : ResultCodes)
    (site : Nat → SourceLoc) (label : L) (rs : List ncclResult_t) (k : Nat) (s : State) :
    (runStmts (ncclCheckGotoSeq K site label k rs) s : Ctl ρ L × State).2.cleanups = s.cleanups ∧
    ∀ v, (runStmts (ncclCheckGotoSeq K site label k rs) s : Ctl ρ L × State).1 ≠ .ret v := by
  induction rs generalizing k s with
  | nil => simp [ncclCheckGotoSeq, runStmts]
  | cons r rs ih =>
    by_cases hr : r ≠ K.ncclSuccess ∧ r ≠ K.ncclInProgress
    · simp [ncclCheckGotoSeq, runStmts, NCCLCHECKGOTO_subOp_fail K (site k) label k r s hr]
    · have hok : r = K.ncclSuccess ∨ r = K.ncclInProgress := by
        by_cases h1 : r = K.ncclSuccess
        · exact Or.inl h1
        · exact Or.inr (by_contra fun h2 => hr ⟨h1, h2⟩)
      simp only [ncclCheckGotoSeq, runStmts, NCCLCHECKGOTO_subOp_ok K (site k) label k r s hok]
      exact ih (k + 1) _

theorem NCCLCHECKTHREAD_subOp_ok {L : Type} (K : ResultCodes) (loc : SourceLoc) (args : Nat)
    (i : Nat) (r : ncclResult_t) (s : State) (h : r = K.ncclSuccess ∨ r = K.ncclInProgress) :
    NCCLCHECKTHREAD K loc (subOp i r) args s =
      ((.next : Ctl Nat L),
        { s with evals := s.evals ++ [i], argsRet := r, retStores := s.retStores ++ [r] }) := by
  have hn : ¬ (r ≠ K.ncclSuccess ∧ r ≠ K.ncclInProgress) := by
    rcases h with h | h <;> simp [h]
  simp only [NCCLCHECKTHREAD, subOp, State.storeRet, if_neg hn]

theorem NCCLCHECKTHREAD_subOp_fail {L : Type} (K : ResultCodes) (loc : SourceLoc) (args : Nat)
    (i : Nat) (r : ncclResult_t) (s : State) (h : r ≠ K.ncclSuccess ∧ r ≠ K.ncclInProgress) :
    NCCLCHECKTHREAD K loc (subOp i r) args s =
      ((.ret args : Ctl Nat L),
        { s with evals := s.evals ++ [i], argsRet := r, retStores := s.retStores ++ [r],
                 log := s.log ++ [asyncLine loc r] }) := by
  simp only [NCCLCHECKTHREAD, subOp, State.storeRet, if_pos h, State.emit, traceArgs, asyncLine]

theorem runStmts_ncclCheckThreadSeq_fail {L : Type} (K : ResultCodes) (site : Nat → SourceLoc)
    (args : Nat) (pre post : List ncclResult_t) (c : ncclResult_t)
    (hpre : ∀ r ∈ pre, r = K.ncclSuccess ∨ r = K.ncclInProgress)
    (hc : c ≠ K.ncclSuccess ∧ c ≠ K.ncclInProgress) (k : Nat) (s : State) :
    runStmts (ncclCheckThreadSeq K site args k (pre ++ c :: post)) s =
      ((.ret args : Ctl Nat L),
        { s with evals := s.evals ++ List.range' k (pre.length + 1),
                 argsRet := c,
                 retStores := s.retStores ++ (pre ++ [c]),
                 log := s.log ++ [asyncLine (site (k + pre.length)) c] }) := by
  induction pre generalizing k s with
  | nil =>
    simp [ncclCheckThreadSeq, runStmts, NCCLCHECKTHREAD_subOp_fail K (site k) args k c s hc]
  | cons r rs ih =>
    have hr := hpre r (List.mem_cons_self r rs)
    have hrs : ∀ x ∈ rs, x = K.ncclSuccess ∨ x = K.ncclInProgress :=
      fun x hx => hpre x (List.mem_cons_of_mem r hx)
    rw [List.cons_append]
    simp only [ncclCheckThreadSeq, runStmts, NCCLCHECKTHREAD_subOp_ok K (site k) args k r s hr]
    rw [ih hrs (k + 1)]
    simp [List.range'_succ, Nat.add_assoc, Nat.add_comm 1]

theorem nested_failure (K : ResultCodes) (site : Nat → SourceLoc) (final : Nat → ncclResult_t)
    (innermost : Expr ncclResult_t) (s : State) (c : ncclResult_t)
    (hin : (innermost s).1 = c) (hc : c ≠ K.ncclSuccess ∧ c ≠ K.ncclInProgress) (d : Nat) :
    nested K site final innermost d s =
      (c, { (innermost s).2 with
            log := (innermost s).2.log ++ (List.range d).map fun k => traceLine (site k) c }) := by
  induction d with
  | zero =>
    simp only [nested, List.range_zero, List.map_nil, List.append_nil]
    rw [← hin]
  | succ d ih =>
    have hc1 : (nested K site final innermost d s).1 ≠ K.ncclSuccess ∧
        (nested K site final innermost d s).1 ≠ K.ncclInProgress := by
      rw [ih]; exact hc
    simp only [nested, callFn, runStmts, NCCLCHECK, if_pos hc1]
    rw [ih]
    simp [State.emit, traceArgs, traceLine, List.range_succ]

theorem SYSCHECKSYNC_break (E : ErrnoCodes) (statement : Expr Int) (name : String)
    (fuel : Nat) (s : State)
    (h : ¬ ((statement s).1 = -1 ∧ ((statement s).2.errno = E.EINTR ∨
      (statement s).2.errno = E.EWOULDBLOCK ∨ (statement s).2.errno = E.EAGAIN))) :
    SYSCHECKSYNC E statement name (fuel + 1) s = some ((statement s).1, (statement s).2) := by
  simp only [SYSCHECKSYNC, if_neg h]

theorem SYSCHECK_scripted {L : Type} (E : ErrnoCodes) (K : ResultCodes) (name : String)
    (outs : Nat → Outcome) (n fuel : Nat) (s : State) (hf : n < fuel)
    (hretry : ∀ k, s.evals.length ≤ k → k < s.evals.length + n → retryOutcome E (outs k))
    (hlast : ¬ retryOutcome E (outs (s.evals.length + n))) :
    SYSCHECK E K (scripted outs) name fuel s =
      some (if (outs (s.evals.length + n)).retval = -1 then
          ((.ret K.ncclSystemError : Ctl ncclResult_t L),
            { s with errno := (outs (s.evals.length + n)).errno,
                     evals := s.evals ++ List.range' s.evals.length (n + 1),
                     log := s.log ++
                       ((List.range' s.evals.length n).map fun k => retryLine name (outs k).errno)
                       ++ [failedLine name (outs (s.evals.length + n)).errno] })
        else
          ((.next : Ctl ncclResult_t L),
            { s with errno := (outs (s.evals.length + n)).errno,
                     evals := s.evals ++ List.range' s.evals.length (n + 1),
                     log := s.log ++
                       (List.range' s.evals.length n).map
                         fun k => retryLine name (outs k).errno })) := by
  simp only [SYSCHECK, SYSCHECKSYNC_scripted E name outs n fuel s hf hretry hlast]
  split <;> simp [State.emit, failedLine, *]

theorem SYSCHECKGOTO_scripted {ρ L : Type} (E : ErrnoCodes) (K : ResultCodes) (name : String)
    (label : L) (outs : Nat → Outcome) (n fuel : Nat) (s : State) (hf : n < fuel)
    (hretry : ∀ k, s.evals.length ≤ k → k < s.evals.length + n → retryOutcome E (outs k))
    (hlast : ¬ retryOutcome E (outs (s.evals.length + n))) :
    SYSCHECKGOTO E K (scripted outs) name label fuel s =
      some (if (outs (s.evals.length + n)).retval = -1 then
          ((.goto label : Ctl ρ L),
            { s with errno := (outs (s.evals.length + n)).errno,
                     RES := K.ncclSystemError,
                     evals := s.evals ++ List.range' s.evals.length (n + 1),
                     log := s.log ++
                       ((List.range' s.evals.length n).map fun k => retryLine name (outs k).errno)
                       ++ [failedLine name (outs (s.evals.length + n)).errno] })
        else
          ((.next : Ctl ρ L),
            { s with errno := (outs (s.evals.length + n)).errno,
                     evals := s.evals ++ List.range' s.evals.length (n + 1),
                     log := s.log ++
                       (List.range' s.evals.length n).map
                         fun k => retryLine name (outs k).errno })) := by
  simp only [SYSCHECKGOTO, SYSCHECKSYNC_scripted E name outs n fuel s hf hretry hlast]
  split <;> simp [State.emit, State.setRES, failedLine, *]

theorem retry_window (E : ErrnoCodes) (outs : Nat → Outcome) (b n : Nat)
    (h : ∀ j, j < n → retryOutcome E (outs (b + j))) :
    ∀ k, b ≤ k → k < b + n → retryOutcome E (outs k) := by
  intro k hk1 hk2
  have hk : k = b + (k - b) := by omega
  rw [hk]
  exact h _ (by omega)

theorem runStmts_ncclCheckThreadSeq_ok {L : Type} (K : ResultCodes) (site : Nat → SourceLoc)
    (args : Nat) (rs : List ncclResult_t)
    (hrs : ∀ r ∈ rs, r = K.ncclSuccess ∨ r = K.ncclInProgress) (k : Nat) (s : State) :
    runStmts (ncclCheckThreadSeq K site args k rs) s =
      ((.next : Ctl Nat L),
        { s with evals := s.evals ++ List.range' k rs.length,
                 argsRet := rs.getLast?.getD s.argsRet,
                 retStores := s.retStores ++ rs }) := by
  induction rs generalizing k s with
  | nil => simp [ncclCheckThreadSeq, runStmts]
  | cons r rs ih =>
    have hr := hrs r (List.mem_cons_self r rs)
    have hrs1 : ∀ x ∈ rs, x = K.ncclSuccess ∨ x = K.ncclInProgress :=
      fun x hx => hrs x (List.mem_cons_of_mem r hx)
    simp only [ncclCheckThreadSeq, runStmts, NCCLCHECKTHREAD_subOp_ok K (site k) args k r s hr]
    rw [ih hrs1 (k + 1)]
    cases rs with
    | nil => simp
    | cons r2 rs2 =>
      simp [List.range'_succ, List.getLast?_eq_getLast (r2 :: rs2) (List.cons_ne_nil _ _)]

/-- A list of sub-results either holds no failure code or splits at its first one. -/
theorem first_failure_or_none (K : ResultCodes) (rs : List ncclResult_t) :
    (∀ r ∈ rs, r = K.ncclSuccess ∨ r = K.ncclInProgress) ∨
    ∃ pre c post, rs = pre ++ c :: post ∧
      (∀ r ∈ pre, r = K.ncclSuccess ∨ r = K.ncclInProgress) ∧
      (c ≠ K.ncclSuccess ∧ c ≠ K.ncclInProgress) := by
  induction rs with
  | nil => exact Or.inl (by simp)
  | cons r rs ih =>
    by_cases hr : r ≠ K.ncclSuccess ∧ r ≠ K.ncclInProgress
    · exact Or.inr ⟨[], r, rs, rfl, by simp, hr⟩
    · have hok : r = K.ncclSuccess ∨ r = K.ncclInProgress := by
        by_cases h1 : r = K.ncclSuccess
        · exact Or.inl h1
        · exact Or.inr (by_contra fun h2 => hr ⟨h1, h2⟩)
      rcases ih with hall | ⟨pre, c, post, hsplit, hpre, hc⟩
      · refine Or.inl ?_
        intro x hx
        rcases List.mem_cons.mp hx with rfl | hx
        · exact hok
        · exact hall x hx
      · refine Or.inr ⟨r :: pre, c, post, by rw [hsplit]; rfl, ?_, hc⟩
        intro x hx
        rcases List.mem_cons.mp hx with rfl | hx
        · exact hok
        · exact hpre x hx

theorem SYSCHECKSYNC_finished_index (E : ErrnoCodes) (name : String) (outs : Nat → Outcome) :
    ∀ (fuel : Nat) (s : State) (r : Int × State),
      SYSCHECKSYNC E (scripted outs) name fuel s = some r →
      ∃ n, n < fuel ∧ ¬ retryOutcome E (outs (s.evals.length + n)) ∧
        ∀ j, j < n → retryOutcome E (outs (s.evals.length + j))
  | 0, _, _, h => by simp [SYSCHECKSYNC] at h
  | fuel + 1, s, r, h => by
    by_cases hl : retryOutcome E (outs s.evals.length)
    · have hl1 : (outs s.evals.length).retval = -1 ∧ ((outs s.evals.length).errno = E.EINTR ∨
          (outs s.evals.length).errno = E.EWOULDBLOCK ∨
          (outs s.evals.length).errno = E.EAGAIN) := hl
      simp only [SYSCHECKSYNC, scripted, if_pos hl1] at h
      obtain ⟨n, hn, hlast, hbefore⟩ := SYSCHECKSYNC_finished_index E name outs fuel _ r h
      simp only [State.emit, List.length_append, List.length_singleton] at hlast hbefore
      refine ⟨n + 1, by omega, ?_, ?_⟩
      · have e : s.evals.length + (n + 1) = s.evals.length + 1 + n := by omega
        rw [e]; exact hlast
      · intro j hj
        cases j with
        | zero => exact hl
        | succ j =>
          have e : s.evals.length + (j + 1) = s.evals.length + 1 + j := by omega
          rw [e]; exact hbefore j (by omega)
    · exact ⟨0, by omega, hl, fun j hj => absurd hj (Nat.not_lt_zero j)⟩

theorem SYSCHECKSYNC_spins (E : ErrnoCodes) (name : String) (outs : Nat → Outcome)
    (hall : ∀ k, retryOutcome E (outs k)) :
    ∀ (fuel : Nat) (s : State), SYSCHECKSYNC E (scripted outs) name fuel s = none
  | 0, _ => rfl
  | fuel + 1, s => by
    have hl : (outs s.evals.length).retval = -1 ∧ ((outs s.evals.length).errno = E.EINTR ∨
        (outs s.evals.length).errno = E.EWOULDBLOCK ∨
        (outs s.evals.length).errno = E.EAGAIN) := hall s.evals.length
    simp only [SYSCHECKSYNC, scripted, if_pos hl]
    exact SYSCHECKSYNC_spins E name outs hall fuel _

/-- The scenario of a three-step body whose second sub-result is `7` depends on the
numbering of the enumeration: in a numbering with `ncclInProgress = 7` the second
step does not fail, all three sub-operations run and nothing is logged. -/
theorem NCCLCHECK_sequence_code7_pending :
    callFn (ncclCheckSeq ⟨0, 7, 2⟩ (fun k => ⟨"init.cc", 100 + k⟩) 0 [0, 7, 0]) 0 State.start =
      (0, { State.start with evals := [0, 1, 2] }) := by
  rw [callFn, @runStmts_ncclCheckSeq_ok Empty ⟨0, 7, 2⟩ _ [0, 7, 0] (by decide) 0 State.start]
  rfl

/-! ## Theorems -/

/-- C1: `NCCLCHECK` around a sub-operation that yields `r`: when `r` is `ncclSuccess`
or `ncclInProgress` the check falls through and leaves the state exactly as the
sub-operation left it (no log line); for every other `r` the enclosing function
returns exactly `r` and exactly one line, the back-trace line of the call site, is
appended to the log, nothing else in the state changing. -/
theorem NCCLCHECK_propagates {L : Type} (K : ResultCodes) (loc : SourceLoc) (call : Expr ncclResult_t)
    (s : State) :
    (((call s).1 = K.ncclSuccess ∨ (call s).1 = K.ncclInProgress) →
      NCCLCHECK K loc call s = ((.next : Ctl ncclResult_t L), (call s).2)) ∧
    (((call s).1 ≠ K.ncclSuccess ∧ (call s).1 ≠ K.ncclInProgress) →
      NCCLCHECK K loc call s =
        ((.ret (call s).1 : Ctl ncclResult_t L),
          { (call s).2 with
            log := (call s).2.log ++
              [.INFO .NCCL_ALL "%s:%d -> %d"
                [.str loc.file, .int loc.line, .int (call s).1]] })) := by
  constructor
  · intro h
    have hn : ¬ ((call s).1 ≠ K.ncclSuccess ∧ (call s).1 ≠ K.ncclInProgress) := by
      rcases h with h | h <;> simp [h]
    simp only [NCCLCHECK, if_neg hn]
  · intro h
    simp only [NCCLCHECK, if_pos h, State.emit, traceArgs]

/-- C1, worked example: with `ncclSuccess = 0`, `ncclInProgress = 7`, a sub-operation
that yields `5` makes the enclosing function return `5` and logs the one line of the
call site. -/
theorem NCCLCHECK_propagates_witness :
    NCCLCHECK ⟨0, 7, 2⟩ ⟨"init.cc", 42⟩ (subOp 0 5) State.start =
      ((.ret 5 : Ctl ncclResult_t Empty),
        { State.start with
          evals := [0],
          log := [.INFO .NCCL_ALL "%s:%d -> %d" [.str "init.cc", .int 42, .int 5]] }) :=
  (NCCLCHECK_propagates ⟨0, 7, 2⟩ ⟨"init.cc", 42⟩ (subOp 0 5) State.start).2 (by decide)

/-- C2: a function body `NCCLCHECK(op_0()); NCCLCHECK(op_1()); ...; return final;`
run on any list of sub-results.  If position `i` holds a code `c` that is neither
`ncclSuccess` nor `ncclInProgress` and every earlier position holds one of the two,
the function returns exactly `c`, exactly one line is logged (the back-trace line
of the call site of step `i`, carrying `c`), and exactly the sub-operations
`0, ..., i` are evaluated, once each and in order.  If no position fails, all
sub-operations are evaluated once each, in order, nothing is logged and the
trailing `return` is reached.  For three sub-operations of which the second yields
the code `7` (a code other than `ncclSuccess` and `ncclInProgress`) the function
returns `7`, logs one line at the second call site and never evaluates the third. -/
theorem NCCLCHECK_sequence_first_failure (K : ResultCodes) (site : Nat → SourceLoc)
    (final : ncclResult_t) (s : State) :
    (∀ (results : List ncclResult_t) (i : Nat) (c : ncclResult_t),
      results[i]? = some c → (c ≠ K.ncclSuccess ∧ c ≠ K.ncclInProgress) →
      (∀ j r, j < i → results[j]? = some r → r = K.ncclSuccess ∨ r = K.ncclInProgress) →
      callFn (ncclCheckSeq K site 0 results) final s =
        (c, { s with evals := s.evals ++ List.range (i + 1),
                     log := s.log ++ [traceLine (site i) c] })) ∧
    (∀ (results : List ncclResult_t),
      (∀ r ∈ results, r = K.ncclSuccess ∨ r = K.ncclInProgress) →
      callFn (ncclCheckSeq K site 0 results) final s =
        (final, { s with evals := s.evals ++ List.range results.length })) ∧
    (∀ (r1 r3 : ncclResult_t), (r1 = K.ncclSuccess ∨ r1 = K.ncclInProgress) →
      ((7 : ncclResult_t) ≠ K.ncclSuccess ∧ (7 : ncclResult_t) ≠ K.ncclInProgress) →
      callFn (ncclCheckSeq K site 0 [r1, 7, r3]) final s =
        (7, { s with evals := s.evals ++ [0, 1],
                     log := s.log ++ [traceLine (site 1) 7] })) := by
  have first : ∀ (results : List ncclResult_t) (i : Nat) (c : ncclResult_t),
      results[i]? = some c → (c ≠ K.ncclSuccess ∧ c ≠ K.ncclInProgress) →
      (∀ j r, j < i → results[j]? = some r → r = K.ncclSuccess ∨ r = K.ncclInProgress) →
      callFn (ncclCheckSeq K site 0 results) final s =
        (c, { s with evals := s.evals ++ List.range (i + 1),
                     log := s.log ++ [traceLine (site i) c] }) := by
    intro results i c hi hc hbefore
    obtain ⟨hsplit, hlen⟩ := split_at_position results i c hi
    have hpre : ∀ r ∈ results.take i, r = K.ncclSuccess ∨ r = K.ncclInProgress := by
      intro r hr
      obtain ⟨j, hj, hjr⟩ := List.getElem_of_mem hr
      have hji : j < i := by rw [hlen] at hj; exact hj
      refine hbefore j r hji ?_
      rw [← hjr, List.getElem_take]
      exact List.getElem?_eq_getElem _
    have hrun := @runStmts_ncclCheckSeq_fail Empty K site (results.take i) (results.drop (i + 1)) c
      hpre hc 0 s
    rw [← hsplit, hlen] at hrun
    simp only [callFn, hrun, List.range_eq_range', Nat.zero_add]
  refine ⟨first, ?_, ?_⟩
  · intro results hall
    simp only [callFn, @runStmts_ncclCheckSeq_ok Empty K site results hall 0 s,
      List.range_eq_range']
  · intro r1 r3 h1 h7
    have h := first [r1, 7, r3] 1 7 rfl h7 (by
      intro j r hj hjr
      have hj0 : j = 0 := by omega
      subst hj0
      simp only [List.getElem?_cons_zero, Option.some.injEq] at hjr
      rw [← hjr]
      exact h1)
    simpa [List.range_succ] using h

/-- C2, worked example: with `ncclSuccess = 0`, `ncclInProgress = 1` and
`ncclSystemError = 2`, the body with sub-results `0, 7, 5` returns `7`, logs the
one line of the second call site and evaluates sub-operations `0` and `1` only. -/
theorem NCCLCHECK_sequence_first_failure_witness :
    callFn (ncclCheckSeq ⟨0, 1, 2⟩ (fun k => ⟨"init.cc", 100 + k⟩) 0 [0, 7, 5]) 0 State.start =
      (7, { State.start with evals := [0, 1],
                             log := [traceLine ⟨"init.cc", 101⟩ 7] }) :=
  (NCCLCHECK_sequence_first_failure ⟨0, 1, 2⟩ (fun k => ⟨"init.cc", 100 + k⟩) 0
    State.start).2.2 0 5 (Or.inl rfl) (by decide)

/-- C3: `SYSCHECKSYNC` around a statement whose next `n` evaluations produce
(return `-1`, transient `errno`) and whose following evaluation produces any other
outcome: given room for `n + 1` iterations the loop finishes, having evaluated the
statement exactly `n + 1` times, with `retval` equal to the return value of the
last of them, `errno` as that evaluation left it, and one retry notice logged per
retried evaluation.  And for every wrapped statement whatsoever, the loop never
finishes with `retval == -1` and a transient `errno`. -/
theorem SYSCHECKSYNC_retries_until_non_transient (E : ErrnoCodes) (name : String) :
    (∀ (outs : Nat → Outcome) (n fuel : Nat) (s : State), n < fuel →
      (∀ j, j < n → retryOutcome E (outs (s.evals.length + j))) →
      ¬ retryOutcome E (outs (s.evals.length + n)) →
      SYSCHECKSYNC E (scripted outs) name fuel s =
        some ((outs (s.evals.length + n)).retval,
          { s with errno := (outs (s.evals.length + n)).errno,
                   evals := s.evals ++ List.range' s.evals.length (n + 1),
                   log := s.log ++
                     (List.range' s.evals.length n).map
                       fun k => retryLine name (outs k).errno })) ∧
    (∀ (statement : Expr Int) (fuel : Nat) (s : State) (retval : Int) (s1 : State),
      SYSCHECKSYNC E statement name fuel s = some (retval, s1) →
      ¬ (retval = -1 ∧ (s1.errno = E.EINTR ∨ s1.errno = E.EWOULDBLOCK ∨ s1.errno = E.EAGAIN))) := by
  constructor
  · intro outs n fuel s hf hretry hlast
    refine SYSCHECKSYNC_scripted E name outs n fuel s hf ?_ hlast
    intro k hk1 hk2
    have hk : k = s.evals.length + (k - s.evals.length) := by omega
    rw [hk]
    exact hretry _ (by omega)
  · intro statement fuel
    induction fuel with
    | zero => intro s retval s1 h; simp [SYSCHECKSYNC] at h
    | succ fuel ih =>
      intro s retval s1 h
      simp only [SYSCHECKSYNC] at h
      split at h
      · exact ih _ _ _ h
      · rename_i hcond
        simp only [Option.some.injEq, Prod.mk.injEq] at h
        rw [← h.1, ← h.2]
        exact hcond

/-- C3, worked example: with the Linux values `EINTR = 4`, `EWOULDBLOCK = EAGAIN = 11`,
a statement that fails with `EINTR`, then with `EAGAIN`, then returns `5` is
evaluated three times, two retry notices are logged and `retval` is `5`. -/
theorem SYSCHECKSYNC_retries_until_non_transient_witness :
    SYSCHECKSYNC ⟨4, 11, 11⟩
        (scripted fun k => if k = 0 then ⟨-1, 4⟩ else if k = 1 then ⟨-1, 11⟩ else ⟨5, 0⟩)
        "recv" 3 State.start =
      some (5, { State.start with errno := 0, evals := [0, 1, 2],
                                  log := [retryLine "recv" 4, retryLine "recv" 11] }) :=
  (SYSCHECKSYNC_retries_until_non_transient ⟨4, 11, 11⟩ "recv").1
    (fun k => if k = 0 then ⟨-1, 4⟩ else if k = 1 then ⟨-1, 11⟩ else ⟨5, 0⟩) 2 3 State.start
    (by decide) (by intro j hj; interval_cases j <;> decide) (by decide)

/-- C4: `SYSCHECK` around a statement whose first evaluation returns `-1` and leaves
in `errno` a value `e` that is none of `EINTR`, `EWOULDBLOCK`, `EAGAIN`: given room
for one iteration the check finishes, the statement has been evaluated exactly
once, no retry notice has been logged, exactly one line has been logged and it is
the `WARN` line carrying `strerror(e)`, and the enclosing function returns
`ncclSystemError`. -/
theorem SYSCHECK_non_transient_fails_once {L : Type} (E : ErrnoCodes) (K : ResultCodes)
    (name : String) (outs : Nat → Outcome) (e : Int) (fuel : Nat) (s : State)
    (hfuel : 0 < fuel)
    (hfirst : outs s.evals.length = ⟨-1, e⟩)
    (he : e ≠ E.EINTR ∧ e ≠ E.EWOULDBLOCK ∧ e ≠ E.EAGAIN) :
    SYSCHECK E K (scripted outs) name fuel s =
      some ((.ret K.ncclSystemError : Ctl ncclResult_t L),
        { s with errno := e,
                 evals := s.evals ++ [s.evals.length],
                 log := s.log ++ [.WARN ("Call to " ++ name ++ " failed: %s") [.strerror e]] }) := by
  obtain ⟨fuel, rfl⟩ : ∃ f, fuel = f + 1 := ⟨fuel - 1, by omega⟩
  have hb : ¬ ((scripted outs s).1 = -1 ∧ ((scripted outs s).2.errno = E.EINTR ∨
      (scripted outs s).2.errno = E.EWOULDBLOCK ∨ (scripted outs s).2.errno = E.EAGAIN)) := by
    simp only [scripted, hfirst]
    rintro ⟨_, h | h | h⟩
    · exact he.1 h
    · exact he.2.1 h
    · exact he.2.2 h
  simp only [SYSCHECK, SYSCHECKSYNC_break E (scripted outs) name fuel s hb]
  simp [scripted, hfirst, State.emit]

/-- C4, worked example: with the Linux `errno` values, a `connect` that returns `-1`
with `errno = 111` (`ECONNREFUSED`) is evaluated once, logs one warning and makes
the enclosing function return `ncclSystemError` (here `2`). -/
theorem SYSCHECK_non_transient_fails_once_witness :
    SYSCHECK ⟨4, 11, 11⟩ ⟨0, 7, 2⟩ (scripted fun _ => ⟨-1, 111⟩) "connect" 1 State.start =
      some ((.ret 2 : Ctl ncclResult_t Empty),
        { State.start with errno := 111, evals := [0],
                           log := [.WARN "Call to connect failed: %s" [.strerror 111]] }) :=
  SYSCHECK_non_transient_fails_once ⟨4, 11, 11⟩ ⟨0, 7, 2⟩ "connect" (fun _ => ⟨-1, 111⟩) 111 1
    State.start (by decide) rfl (by decide)

/-- C5: `PTHREADCHECK` and `PTHREADCHECKGOTO` around a statement that returns `r`,
whatever it leaves in `errno`: the state after the check is the state after one
evaluation of the statement, changed at most in the log and in `RES`.  If `r` is
`0` both checks fall through and log nothing.  If `r` is not `0`, whatever its
value (the values of `EAGAIN`, `EWOULDBLOCK` and `EINTR` included), exactly one
`WARN` line carrying `strerror(r)` is logged, `PTHREADCHECK` makes the enclosing
function return `ncclSystemError`, and `PTHREADCHECKGOTO` assigns `ncclSystemError`
to `RES` and jumps to the label.  A scripted statement is evaluated exactly once. -/
theorem PTHREADCHECK_never_retries {ρ L : Type} (K : ResultCodes) (name : String) (label : L)
    (statement : Expr Int) (s : State) :
    ((statement s).1 = 0 →
      PTHREADCHECK K statement name s = ((.next : Ctl ncclResult_t L), (statement s).2) ∧
      PTHREADCHECKGOTO K statement name label s = ((.next : Ctl ρ L), (statement s).2)) ∧
    ((statement s).1 ≠ 0 →
      PTHREADCHECK K statement name s =
        ((.ret K.ncclSystemError : Ctl ncclResult_t L),
          { (statement s).2 with
            log := (statement s).2.log ++
              [.WARN ("Call to " ++ name ++ " failed: %s") [.strerror (statement s).1]] }) ∧
      PTHREADCHECKGOTO K statement name label s =
        ((.goto label : Ctl ρ L),
          { (statement s).2 with
            RES := K.ncclSystemError,
            log := (statement s).2.log ++
              [.WARN ("Call to " ++ name ++ " failed: %s") [.strerror (statement s).1]] })) ∧
    (∀ (outs : Nat → Outcome),
      (PTHREADCHECK K (scripted outs) name s : Ctl ncclResult_t L × State).2.evals =
        s.evals ++ [s.evals.length] ∧
      (PTHREADCHECKGOTO K (scripted outs) name label s : Ctl ρ L × State).2.evals =
        s.evals ++ [s.evals.length]) := by
  refine ⟨?_, ?_, ?_⟩
  · intro h
    have hn : ¬ (statement s).1 ≠ 0 := by simp [h]
    constructor
    · simp only [PTHREADCHECK, if_neg hn]
    · simp only [PTHREADCHECKGOTO, if_neg hn]
  · intro h
    constructor
    · simp only [PTHREADCHECK, if_pos h, State.emit]
    · simp only [PTHREADCHECKGOTO, if_pos h, State.emit, State.setRES]
  · intro outs
    constructor
    · simp only [PTHREADCHECK]
      split <;> simp [scripted, State.emit]
    · simp only [PTHREADCHECKGOTO]
      split <;> simp [scripted, State.emit, State.setRES]

/-- C5, worked example: with `EAGAIN = 11`, a `pthread_create` that returns `11`
while `errno` holds `EINTR = 4` is evaluated once and not retried: one warning
carrying `strerror(11)` is logged and the function returns `ncclSystemError`
(here `2`); the goto form stores `2` in `RES` and jumps. -/
theorem PTHREADCHECK_never_retries_witness :
    PTHREADCHECK ⟨0, 7, 2⟩ (scripted fun _ => ⟨11, 4⟩) "pthread_create" State.start =
        ((.ret 2 : Ctl ncclResult_t Unit),
          { State.start with
            errno := 4, evals := [0],
            log := [.WARN "Call to pthread_create failed: %s" [.strerror 11]] }) ∧
    PTHREADCHECKGOTO ⟨0, 7, 2⟩ (scripted fun _ => ⟨11, 4⟩) "pthread_create" () State.start =
        ((.goto () : Ctl ncclResult_t Unit),
          { State.start with
            errno := 4, evals := [0], RES := 2,
            log := [.WARN "Call to pthread_create failed: %s" [.strerror 11]] }) :=
  (PTHREADCHECK_never_retries ⟨0, 7, 2⟩ "pthread_create" ()
    (scripted fun _ => ⟨11, 4⟩) State.start).2.1 (by decide)

/-- C6: a function `NCCLCHECKGOTO(op_0(), RES, label); ...; label: cleanup; return RES;`
run on any list of sub-results.  For every list the cleanup section is entered
exactly once.  If position `i` holds a code `c` that is neither `ncclSuccess` nor
`ncclInProgress` and every earlier position holds one of the two, then `RES` at the
cleanup point is `c`, the function returns `c`, exactly the sub-operations
`0, ..., i` have been evaluated (no later step runs, so no later success replaces
`c`), and the one back-trace line of step `i` has been logged. -/
theorem NCCLCHECKGOTO_sequence_cleanup_once (K : ResultCodes) (site : Nat → SourceLoc)
    (s : State) :
    (∀ (results : List ncclResult_t),
      (callFnCleanup (ncclCheckGotoSeq K site () 0 results) s).2.cleanups = s.cleanups + 1) ∧
    (∀ (results : List ncclResult_t) (i : Nat) (c : ncclResult_t),
      results[i]? = some c → (c ≠ K.ncclSuccess ∧ c ≠ K.ncclInProgress) →
      (∀ j r, j < i → results[j]? = some r → r = K.ncclSuccess ∨ r = K.ncclInProgress) →
      callFnCleanup (ncclCheckGotoSeq K site () 0 results) s =
        (c, { s with evals := s.evals ++ List.range (i + 1),
                     RES := c,
                     log := s.log ++ [traceLine (site i) c],
                     cleanups := s.cleanups + 1 })) := by
  constructor
  · intro results
    obtain ⟨h1, h2⟩ :=
      @runStmts_ncclCheckGotoSeq_cleanups ncclResult_t Unit K site () results 0 s
    unfold callFnCleanup
    generalize runStmts (ncclCheckGotoSeq K site () 0 results) s = p at h1 h2
    match p, h1, h2 with
    | (.next, s1), h1, _ => simpa using h1
    | (.goto (), s1), h1, _ => simpa using h1
    | (.ret v, s1), _, h2 => exact absurd rfl (h2 v)
  · intro results i c hi hc hbefore
    obtain ⟨hsplit, hlen⟩ := split_at_position results i c hi
    have hpre := all_before_position
      (fun r => r = K.ncclSuccess ∨ r = K.ncclInProgress) results i hbefore
    have hrun := @runStmts_ncclCheckGotoSeq_fail ncclResult_t Unit K site ()
      (results.take i) (results.drop (i + 1)) c hpre hc 0 s
    rw [← hsplit, hlen] at hrun
    simp only [callFnCleanup, hrun, List.range_eq_range', Nat.zero_add]

/-- C6, worked example: with `ncclSuccess = 0`, `ncclInProgress = 7`, starting with
`RES = 0`, the sub-results `0, 3, 0` leave `RES = 3` at the cleanup point, which is
entered once; the function returns `3` and the third step, a success, never runs. -/
theorem NCCLCHECKGOTO_sequence_cleanup_once_witness :
    callFnCleanup (ncclCheckGotoSeq ⟨0, 7, 2⟩ (fun k => ⟨"init.cc", 100 + k⟩) () 0 [0, 3, 0])
        State.start =
      (3, { State.start with evals := [0, 1], RES := 3,
                             log := [traceLine ⟨"init.cc", 101⟩ 3], cleanups := 1 }) :=
  (NCCLCHECKGOTO_sequence_cleanup_once ⟨0, 7, 2⟩ (fun k => ⟨"init.cc", 100 + k⟩)
    State.start).2 [0, 3, 0] 1 3 rfl (by decide)
    (by intro j r hj hjr; interval_cases j; simp at hjr; subst hjr; exact Or.inl rfl)

/-- C7: a worker `NCCLCHECKTHREAD(op_0(), args); ...; return args;` over one context,
run on any list of sub-results.  If position `i` holds a code `c` that is neither
`ncclSuccess` nor `ncclInProgress` and every earlier position holds one of the two,
the worker returns the handle `args`, exactly the sub-operations `0, ..., i` have
been evaluated, `(args)->ret` holds `c`, and the one `[Async thread]` line of step
`i` has been logged.  In particular when the first step yields `ncclSuccess` and the
second fails with `c`, `(args)->ret` is `c` whatever the later steps would yield. -/
theorem NCCLCHECKTHREAD_sequence_first_failure (K : ResultCodes) (site : Nat → SourceLoc)
    (args : Nat) (s : State) :
    (∀ (results : List ncclResult_t) (i : Nat) (c : ncclResult_t),
      results[i]? = some c → (c ≠ K.ncclSuccess ∧ c ≠ K.ncclInProgress) →
      (∀ j r, j < i → results[j]? = some r → r = K.ncclSuccess ∨ r = K.ncclInProgress) →
      callFn (ncclCheckThreadSeq K site args 0 results) args s =
        (args, { s with evals := s.evals ++ List.range (i + 1),
                        argsRet := c,
                        retStores := s.retStores ++ (results.take i ++ [c]),
                        log := s.log ++ [asyncLine (site i) c] })) ∧
    (∀ (c : ncclResult_t) (later : List ncclResult_t),
      (c ≠ K.ncclSuccess ∧ c ≠ K.ncclInProgress) →
      (callFn (ncclCheckThreadSeq K site args 0 (K.ncclSuccess :: c :: later)) args s).1 = args ∧
      (callFn (ncclCheckThreadSeq K site args 0 (K.ncclSuccess :: c :: later)) args s).2.argsRet
        = c ∧
      (callFn (ncclCheckThreadSeq K site args 0 (K.ncclSuccess :: c :: later)) args s).2.evals
        = s.evals ++ [0, 1]) := by
  have first : ∀ (results : List ncclResult_t) (i : Nat) (c : ncclResult_t),
      results[i]? = some c → (c ≠ K.ncclSuccess ∧ c ≠ K.ncclInProgress) →
      (∀ j r, j < i → results[j]? = some r → r = K.ncclSuccess ∨ r = K.ncclInProgress) →
      callFn (ncclCheckThreadSeq K site args 0 results) args s =
        (args, { s with evals := s.evals ++ List.range (i + 1),
                        argsRet := c,
                        retStores := s.retStores ++ (results.take i ++ [c]),
                        log := s.log ++ [asyncLine (site i) c] }) := by
    intro results i c hi hc hbefore
    obtain ⟨hsplit, hlen⟩ := split_at_position results i c hi
    have hpre := all_before_position
      (fun r => r = K.ncclSuccess ∨ r = K.ncclInProgress) results i hbefore
    have hrun := @runStmts_ncclCheckThreadSeq_fail Empty K site args
      (results.take i) (results.drop (i + 1)) c hpre hc 0 s
    rw [← hsplit, hlen] at hrun
    simp only [callFn, hrun, List.range_eq_range', Nat.zero_add]
  refine ⟨first, ?_⟩
  intro c later hc
  have h := first (K.ncclSuccess :: c :: later) 1 c (by simp) hc (by
    intro j r hj hjr
    have hj0 : j = 0 := by omega
    subst hj0
    simp only [List.getElem?_cons_zero, Option.some.injEq] at hjr
    exact Or.inl hjr.symm)
  rw [h]
  simp [List.range_succ]

/-- C7, worked example: with `ncclSuccess = 0`, `ncclInProgress = 7`, a worker over the
context at address `64` whose steps would yield `0, 2, 5` returns `64` after the
second step with `(args)->ret = 2`; the third step, which would have produced `5`,
never runs. -/
theorem NCCLCHECKTHREAD_sequence_first_failure_witness :
    callFn (ncclCheckThreadSeq ⟨0, 7, 2⟩ (fun k => ⟨"group.cc", 40 + k⟩) 64 0 [0, 2, 5]) 64
        State.start =
      (64, { State.start with evals := [0, 1], argsRet := 2, retStores := [0, 2],
                              log := [asyncLine ⟨"group.cc", 41⟩ 2] }) :=
  (NCCLCHECKTHREAD_sequence_first_failure ⟨0, 7, 2⟩ (fun k => ⟨"group.cc", 40 + k⟩) 64
    State.start).1 [0, 2, 5] 1 2 rfl (by decide)
    (by intro j r hj hjr; interval_cases j; simp at hjr; subst hjr; exact Or.inl rfl)

/-- C8: the assertion checks around a statement that returns `v`, compared with the
sentinel `value`.  `NEQCHECK` makes the enclosing function return
`ncclSystemError` exactly when `v != value` and `EQCHECK` exactly when
`v == value`, so exactly one of the two fails; a failing check never returns a code
other than `ncclSystemError`; `NEQCHECKGOTO` and `EQCHECKGOTO` jump to the label
under the same respective condition, having assigned `ncclSystemError` to `RES`.
The last two parts give the complete outcome of all four checks in either case:
a failing check logs the one line carrying `ncclSystemError` and `strerror(errno)`,
a passing check leaves the state as the statement left it. -/
theorem assertion_checks_fail_condition {ρ L : Type} (K : ResultCodes) (loc : SourceLoc)
    (statement : Expr Int) (value : Int) (label : L) (s : State) :
    (((NEQCHECK K loc statement value s : Ctl ncclResult_t L × State).1 =
        .ret K.ncclSystemError) ↔ (statement s).1 ≠ value) ∧
    (((EQCHECK K loc statement value s : Ctl ncclResult_t L × State).1 =
        .ret K.ncclSystemError) ↔ (statement s).1 = value) ∧
    (((NEQCHECK K loc statement value s : Ctl ncclResult_t L × State).1 =
          .ret K.ncclSystemError ∧
        (EQCHECK K loc statement value s : Ctl ncclResult_t L × State).1 = .next) ∨
      ((NEQCHECK K loc statement value s : Ctl ncclResult_t L × State).1 = .next ∧
        (EQCHECK K loc statement value s : Ctl ncclResult_t L × State).1 =
          .ret K.ncclSystemError)) ∧
    (∀ c : ncclResult_t,
      ((NEQCHECK K loc statement value s : Ctl ncclResult_t L × State).1 = .ret c ∨
        (EQCHECK K loc statement value s : Ctl ncclResult_t L × State).1 = .ret c) →
      c = K.ncclSystemError) ∧
    (((NEQCHECKGOTO K loc statement value label s : Ctl ρ L × State).1 = .goto label ∧
        (NEQCHECKGOTO K loc statement value label s : Ctl ρ L × State).2.RES =
          K.ncclSystemError) ↔ (statement s).1 ≠ value) ∧
    (((EQCHECKGOTO K loc statement value label s : Ctl ρ L × State).1 = .goto label ∧
        (EQCHECKGOTO K loc statement value label s : Ctl ρ L × State).2.RES =
          K.ncclSystemError) ↔ (statement s).1 = value) ∧
    ((statement s).1 ≠ value →
      NEQCHECK K loc statement value s =
        ((.ret K.ncclSystemError : Ctl ncclResult_t L),
          { (statement s).2 with
            log := (statement s).2.log ++
              [assertLine loc K.ncclSystemError (statement s).2.errno] }) ∧
      NEQCHECKGOTO K loc statement value label s =
        ((.goto label : Ctl ρ L),
          { (statement s).2 with
            RES := K.ncclSystemError,
            log := (statement s).2.log ++
              [assertLine loc K.ncclSystemError (statement s).2.errno] }) ∧
      EQCHECK K loc statement value s = ((.next : Ctl ncclResult_t L), (statement s).2) ∧
      EQCHECKGOTO K loc statement value label s = ((.next : Ctl ρ L), (statement s).2)) ∧
    ((statement s).1 = value →
      EQCHECK K loc statement value s =
        ((.ret K.ncclSystemError : Ctl ncclResult_t L),
          { (statement s).2 with
            log := (statement s).2.log ++
              [assertLine loc K.ncclSystemError (statement s).2.errno] }) ∧
      EQCHECKGOTO K loc statement value label s =
        ((.goto label : Ctl ρ L),
          { (statement s).2 with
            RES := K.ncclSystemError,
            log := (statement s).2.log ++
              [assertLine loc K.ncclSystemError (statement s).2.errno] }) ∧
      NEQCHECK K loc statement value s = ((.next : Ctl ncclResult_t L), (statement s).2) ∧
      NEQCHECKGOTO K loc statement value label s = ((.next : Ctl ρ L), (statement s).2)) := by
  have hne : (statement s).1 ≠ value →
      NEQCHECK K loc statement value s =
        ((.ret K.ncclSystemError : Ctl ncclResult_t L),
          { (statement s).2 with
            log := (statement s).2.log ++
              [assertLine loc K.ncclSystemError (statement s).2.errno] }) ∧
      NEQCHECKGOTO K loc statement value label s =
        ((.goto label : Ctl ρ L),
          { (statement s).2 with
            RES := K.ncclSystemError,
            log := (statement s).2.log ++
              [assertLine loc K.ncclSystemError (statement s).2.errno] }) ∧
      EQCHECK K loc statement value s = ((.next : Ctl ncclResult_t L), (statement s).2) ∧
      EQCHECKGOTO K loc statement value label s = ((.next : Ctl ρ L), (statement s).2) := by
    intro h
    refine ⟨?_, ?_, ?_, ?_⟩
    · simp only [NEQCHECK, if_pos h, State.emit, traceErrnoArgs, assertLine]
    · simp only [NEQCHECKGOTO, if_pos h, State.emit, State.setRES, traceErrnoArgs, assertLine]
    · simp only [EQCHECK, if_neg h]
    · simp only [EQCHECKGOTO, if_neg h]
  have heq : (statement s).1 = value →
      EQCHECK K loc statement value s =
        ((.ret K.ncclSystemError : Ctl ncclResult_t L),
          { (statement s).2 with
            log := (statement s).2.log ++
              [assertLine loc K.ncclSystemError (statement s).2.errno] }) ∧
      EQCHECKGOTO K loc statement value label s =
        ((.goto label : Ctl ρ L),
          { (statement s).2 with
            RES := K.ncclSystemError,
            log := (statement s).2.log ++
              [assertLine loc K.ncclSystemError (statement s).2.errno] }) ∧
      NEQCHECK K loc statement value s = ((.next : Ctl ncclResult_t L), (statement s).2) ∧
      NEQCHECKGOTO K loc statement value label s = ((.next : Ctl ρ L), (statement s).2) := by
    intro h
    have hn : ¬ (statement s).1 ≠ value := by simp [h]
    refine ⟨?_, ?_, ?_, ?_⟩
    · simp only [EQCHECK, if_pos h, State.emit, traceErrnoArgs, assertLine]
    · simp only [EQCHECKGOTO, if_pos h, State.emit, State.setRES, traceErrnoArgs, assertLine]
    · simp only [NEQCHECK, if_neg hn]
    · simp only [NEQCHECKGOTO, if_neg hn]
  by_cases h : (statement s).1 = value
  · obtain ⟨h1, h2, h3, h4⟩ := heq h
    refine ⟨?_, ?_, ?_, ?_, ?_, ?_, hne, heq⟩ <;> simp [h1, h2, h3, h4, h]
  · obtain ⟨h1, h2, h3, h4⟩ := hne h
    refine ⟨?_, ?_, ?_, ?_, ?_, ?_, hne, heq⟩ <;> simp [h1, h2, h3, h4, h]

/-- C8, worked example: an `mmap` that returns the sentinel `-1` fails
`EQCHECK(mmap, -1)` with `ncclSystemError` (here `2`) and passes `NEQCHECK(mmap, -1)`;
the goto form stores `2` in `RES` and jumps. -/
theorem assertion_checks_fail_condition_witness :
    EQCHECK ⟨0, 7, 2⟩ ⟨"shm.cc", 12⟩ (scripted fun _ => ⟨-1, 12⟩) (-1) State.start =
        ((.ret 2 : Ctl ncclResult_t Unit),
          { State.start with
            errno := 12, evals := [0],
            log := [assertLine ⟨"shm.cc", 12⟩ 2 12] }) ∧
    EQCHECKGOTO ⟨0, 7, 2⟩ ⟨"shm.cc", 12⟩ (scripted fun _ => ⟨-1, 12⟩) (-1) () State.start =
        ((.goto () : Ctl ncclResult_t Unit),
          { State.start with
            errno := 12, evals := [0], RES := 2,
            log := [assertLine ⟨"shm.cc", 12⟩ 2 12] }) ∧
    NEQCHECK ⟨0, 7, 2⟩ ⟨"shm.cc", 12⟩ (scripted fun _ => ⟨-1, 12⟩) (-1) State.start =
        ((.next : Ctl ncclResult_t Unit), { State.start with errno := 12, evals := [0] }) ∧
    NEQCHECKGOTO ⟨0, 7, 2⟩ ⟨"shm.cc", 12⟩ (scripted fun _ => ⟨-1, 12⟩) (-1) () State.start =
        ((.next : Ctl ncclResult_t Unit), { State.start with errno := 12, evals := [0] }) :=
  (assertion_checks_fail_condition ⟨0, 7, 2⟩ ⟨"shm.cc", 12⟩ (scripted fun _ => ⟨-1, 12⟩) (-1) ()
    State.start).2.2.2.2.2.2.2 rfl

/-- C9: for every depth `d` (in particular every `d >= 1`) and every code `c` other
than `ncclSuccess` and `ncclInProgress`: when the innermost sub-operation yields `c`
and each of `d` enclosing functions calls the next inner one through `NCCLCHECK`,
the outermost call yields exactly `c`, which is therefore neither `ncclSuccess` nor
`ncclInProgress`, and is `ncclSystemError` only if `c` itself is. -/
theorem NCCLCHECK_nesting_preserves_code (K : ResultCodes) (site : Nat → SourceLoc)
    (final : Nat → ncclResult_t) (innermost : Expr ncclResult_t) (s : State)
    (c : ncclResult_t) (d : Nat)
    (hin : (innermost s).1 = c) (hc : c ≠ K.ncclSuccess ∧ c ≠ K.ncclInProgress) :
    (nested K site final innermost d s).1 = c ∧
    (nested K site final innermost d s).1 ≠ K.ncclSuccess ∧
    (nested K site final innermost d s).1 ≠ K.ncclInProgress ∧
    ((nested K site final innermost d s).1 = K.ncclSystemError → c = K.ncclSystemError) := by
  rw [nested_failure K site final innermost s c hin hc d]
  exact ⟨rfl, hc.1, hc.2, fun h => h⟩

/-- C9, worked example: with `ncclSuccess = 0`, `ncclInProgress = 7`,
`ncclSystemError = 2`, the code `5` of an innermost sub-operation comes out of three
nested functions as `5`. -/
theorem NCCLCHECK_nesting_preserves_code_witness :
    (nested ⟨0, 7, 2⟩ (fun k => ⟨"net.cc", 10 * k⟩) (fun _ => 0) (subOp 0 5) 3 State.start).1 = 5 :=
  (NCCLCHECK_nesting_preserves_code ⟨0, 7, 2⟩ (fun k => ⟨"net.cc", 10 * k⟩) (fun _ => 0)
    (subOp 0 5) State.start 5 3 rfl (by decide)).1

/-- C10: `NCCLCHECK`, `NCCLCHECKGOTO` and `NCCLCHECKTHREAD` around a sub-operation that
yields `r` take their failure branch under one and the same condition: `NCCLCHECK`
returns `r`, `NCCLCHECKGOTO` jumps to the label with `RES = r`, `NCCLCHECKTHREAD`
returns `args` with `(args)->ret = r`, each if and only if `r` is neither
`ncclSuccess` nor `ncclInProgress`; otherwise each falls through.  None of them
fails on `ncclInProgress`.  When the two enumerators `ncclSuccess` and
`ncclInProgress` are distinct, `r` lies in exactly one of the three classes
success, pending, failure. -/
theorem propagation_checks_classify_alike {ρ L : Type} (K : ResultCodes) (loc : SourceLoc)
    (call : Expr ncclResult_t) (label : L) (args : Nat) (s : State) :
    (((NCCLCHECK K loc call s : Ctl ncclResult_t L × State).1 = .ret (call s).1) ↔
      ((call s).1 ≠ K.ncclSuccess ∧ (call s).1 ≠ K.ncclInProgress)) ∧
    (((NCCLCHECKGOTO K loc call label s : Ctl ρ L × State).1 = .goto label ∧
        (NCCLCHECKGOTO K loc call label s : Ctl ρ L × State).2.RES = (call s).1) ↔
      ((call s).1 ≠ K.ncclSuccess ∧ (call s).1 ≠ K.ncclInProgress)) ∧
    (((NCCLCHECKTHREAD K loc call args s : Ctl Nat L × State).1 = .ret args ∧
        (NCCLCHECKTHREAD K loc call args s : Ctl Nat L × State).2.argsRet = (call s).1) ↔
      ((call s).1 ≠ K.ncclSuccess ∧ (call s).1 ≠ K.ncclInProgress)) ∧
    (¬ ((call s).1 ≠ K.ncclSuccess ∧ (call s).1 ≠ K.ncclInProgress) →
      (NCCLCHECK K loc call s : Ctl ncclResult_t L × State).1 = .next ∧
      (NCCLCHECKGOTO K loc call label s : Ctl ρ L × State).1 = .next ∧
      (NCCLCHECKTHREAD K loc call args s : Ctl Nat L × State).1 = .next) ∧
    ((call s).1 = K.ncclInProgress →
      (NCCLCHECK K loc call s : Ctl ncclResult_t L × State).1 = .next ∧
      (NCCLCHECKGOTO K loc call label s : Ctl ρ L × State).1 = .next ∧
      (NCCLCHECKTHREAD K loc call args s : Ctl Nat L × State).1 = .next) ∧
    (K.ncclSuccess ≠ K.ncclInProgress →
      ((call s).1 = K.ncclSuccess ∧ (call s).1 ≠ K.ncclInProgress ∧
          (NCCLCHECK K loc call s : Ctl ncclResult_t L × State).1 = .next) ∨
      ((call s).1 ≠ K.ncclSuccess ∧ (call s).1 = K.ncclInProgress ∧
          (NCCLCHECK K loc call s : Ctl ncclResult_t L × State).1 = .next) ∨
      ((call s).1 ≠ K.ncclSuccess ∧ (call s).1 ≠ K.ncclInProgress ∧
          (NCCLCHECK K loc call s : Ctl ncclResult_t L × State).1 = .ret (call s).1)) := by
  have pass : ¬ ((call s).1 ≠ K.ncclSuccess ∧ (call s).1 ≠ K.ncclInProgress) →
      (NCCLCHECK K loc call s : Ctl ncclResult_t L × State).1 = .next ∧
      (NCCLCHECKGOTO K loc call label s : Ctl ρ L × State).1 = .next ∧
      (NCCLCHECKTHREAD K loc call args s : Ctl Nat L × State).1 = .next := by
    intro h
    refine ⟨?_, ?_, ?_⟩
    · simp only [NCCLCHECK, if_neg h]
    · simp only [NCCLCHECKGOTO, State.setRES, if_neg h]
    · simp only [NCCLCHECKTHREAD, State.storeRet, if_neg h]
  have fail : ((call s).1 ≠ K.ncclSuccess ∧ (call s).1 ≠ K.ncclInProgress) →
      (NCCLCHECK K loc call s : Ctl ncclResult_t L × State).1 = .ret (call s).1 ∧
      ((NCCLCHECKGOTO K loc call label s : Ctl ρ L × State).1 = .goto label ∧
        (NCCLCHECKGOTO K loc call label s : Ctl ρ L × State).2.RES = (call s).1) ∧
      ((NCCLCHECKTHREAD K loc call args s : Ctl Nat L × State).1 = .ret args ∧
        (NCCLCHECKTHREAD K loc call args s : Ctl Nat L × State).2.argsRet = (call s).1) := by
    intro h
    refine ⟨?_, ⟨?_, ?_⟩, ⟨?_, ?_⟩⟩
    · simp only [NCCLCHECK, if_pos h]
    · simp only [NCCLCHECKGOTO, State.setRES, if_pos h]
    · simp only [NCCLCHECKGOTO, State.setRES, if_pos h, State.emit]
    · simp only [NCCLCHECKTHREAD, State.storeRet, if_pos h]
    · simp only [NCCLCHECKTHREAD, State.storeRet, if_pos h, State.emit]
  refine ⟨?_, ?_, ?_, pass, ?_, ?_⟩
  · constructor
    · intro h
      by_contra hn
      rw [(pass hn).1] at h
      cases h
    · exact fun h => (fail h).1
  · constructor
    · intro h
      by_contra hn
      rw [(pass hn).2.1] at h
      cases h.1
    · exact fun h => (fail h).2.1
  · constructor
    · intro h
      by_contra hn
      rw [(pass hn).2.2] at h
      cases h.1
    · exact fun h => (fail h).2.2
  · intro h
    exact pass (fun hn => hn.2 h)
  · intro hd
    by_cases h1 : (call s).1 = K.ncclSuccess
    · refine Or.inl ⟨h1, ?_, (pass (fun hn => hn.1 h1)).1⟩
      rw [h1]; exact hd
    · by_cases h2 : (call s).1 = K.ncclInProgress
      · exact Or.inr (Or.inl ⟨h1, h2, (pass (fun hn => hn.2 h2)).1⟩)
      · exact Or.inr (Or.inr ⟨h1, h2, (fail ⟨h1, h2⟩).1⟩)

/-- C10, worked example: with `ncclSuccess = 0`, `ncclInProgress = 7`, a sub-operation
that yields `7` makes all three checks fall through. -/
theorem propagation_checks_classify_alike_witness :
    (NCCLCHECK ⟨0, 7, 2⟩ ⟨"group.cc", 7⟩ (subOp 0 7) State.start :
        Ctl ncclResult_t Unit × State).1 = .next ∧
    (NCCLCHECKGOTO ⟨0, 7, 2⟩ ⟨"group.cc", 7⟩ (subOp 0 7) () State.start :
        Ctl ncclResult_t Unit × State).1 = .next ∧
    (NCCLCHECKTHREAD ⟨0, 7, 2⟩ ⟨"group.cc", 7⟩ (subOp 0 7) 64 State.start :
        Ctl Nat Unit × State).1 = .next :=
  (propagation_checks_classify_alike ⟨0, 7, 2⟩ ⟨"group.cc", 7⟩ (subOp 0 7) () 64
    State.start).2.2.2.2.1 rfl

/-- C11: `SYSCHECK` around a statement whose next `k` evaluations return `-1` with a
transient `errno` and whose following evaluation returns a value other than `-1`:
given room for `k + 1` iterations the check finishes and falls through (it does
not return `ncclSystemError`), the statement has been evaluated `k + 1` times, and
the lines added to the log are exactly `k` retry notices, each an `INFO` line, one
per retried evaluation in order; no `WARN` line is among them. -/
theorem SYSCHECK_transient_then_success {L : Type} (E : ErrnoCodes) (K : ResultCodes)
    (name : String) (outs : Nat → Outcome) (k fuel : Nat) (s : State)
    (hfuel : k < fuel)
    (hretry : ∀ j, j < k → retryOutcome E (outs (s.evals.length + j)))
    (hok : (outs (s.evals.length + k)).retval ≠ -1) :
    SYSCHECK E K (scripted outs) name fuel s =
      some ((.next : Ctl ncclResult_t L),
        { s with errno := (outs (s.evals.length + k)).errno,
                 evals := s.evals ++ List.range' s.evals.length (k + 1),
                 log := s.log ++
                   (List.range' s.evals.length k).map
                     fun j => retryLine name (outs j).errno }) ∧
    ((List.range' s.evals.length k).map fun j => retryLine name (outs j).errno).length = k ∧
    (∀ l ∈ (List.range' s.evals.length k).map fun j => retryLine name (outs j).errno,
      l.isInfo = true ∧ l.isWarn = false) := by
  refine ⟨?_, by simp, ?_⟩
  · have hlast : ¬ retryOutcome E (outs (s.evals.length + k)) := fun h => hok h.1
    rw [SYSCHECK_scripted E K name outs k fuel s hfuel
      (retry_window E outs s.evals.length k hretry) hlast, if_neg hok]
  · intro l hl
    obtain ⟨j, _, rfl⟩ := List.mem_map.mp hl
    exact ⟨rfl, rfl⟩

/-- C11, worked example with `k = 3`: with the Linux values `EINTR = 4`,
`EWOULDBLOCK = EAGAIN = 11`, a `recv` that fails with `EINTR`, `EAGAIN`, `EINTR` and
then returns `128` leaves three retry notices in the log and falls through. -/
theorem SYSCHECK_transient_then_success_witness :
    SYSCHECK ⟨4, 11, 11⟩ ⟨0, 7, 2⟩
        (scripted fun k => if k = 0 then ⟨-1, 4⟩ else if k = 1 then ⟨-1, 11⟩
          else if k = 2 then ⟨-1, 4⟩ else ⟨128, 4⟩)
        "recv" 4 State.start =
      some ((.next : Ctl ncclResult_t Empty),
        { State.start with
          errno := 4, evals := [0, 1, 2, 3],
          log := [retryLine "recv" 4, retryLine "recv" 11, retryLine "recv" 4] }) :=
  (SYSCHECK_transient_then_success ⟨4, 11, 11⟩ ⟨0, 7, 2⟩ "recv"
    (fun k => if k = 0 then ⟨-1, 4⟩ else if k = 1 then ⟨-1, 11⟩
      else if k = 2 then ⟨-1, 4⟩ else ⟨128, 4⟩) 3 4 State.start
    (by decide) (by intro j hj; interval_cases j <;> decide) (by decide)).1

/-- C12, counterexample: with two nested `NCCLCHECK` layers around a sub-operation
that yields the failure code `5`, two lines are logged, one by each layer, not one. -/
theorem NCCLCHECK_nesting_single_line_counterexample :
    (nested ⟨0, 7, 2⟩ (fun k => ⟨"net.cc", 10 + k⟩) (fun _ => 0) (subOp 0 5) 2 State.start).2.log =
      [traceLine ⟨"net.cc", 10⟩ 5, traceLine ⟨"net.cc", 11⟩ 5] ∧
    ¬ ((nested ⟨0, 7, 2⟩ (fun k => ⟨"net.cc", 10 + k⟩) (fun _ => 0) (subOp 0 5) 2
        State.start).2.log.length = 1) := by
  rw [nested_failure ⟨0, 7, 2⟩ (fun k => ⟨"net.cc", 10 + k⟩) (fun _ => 0) (subOp 0 5)
    State.start 5 rfl (by decide) 2]
  exact ⟨rfl, by decide⟩

/-- C12, as amended: a failure leaves one back-trace line per `NCCLCHECK` layer it
passes.  For every depth `d` and every code `c` other than `ncclSuccess` and
`ncclInProgress`, when the innermost sub-operation yields `c` and `d` enclosing
functions each call the next inner one through `NCCLCHECK`, the outermost caller
receives `c` and exactly `d` lines are added to the log: layer `k` (counted from
the innermost, starting at `0`) adds the line of its own call site carrying `c`,
in the order innermost first.  The total is one line exactly when `d = 1`. -/
theorem NCCLCHECK_nesting_logs_every_layer (K : ResultCodes) (site : Nat → SourceLoc)
    (final : Nat → ncclResult_t) (innermost : Expr ncclResult_t) (s : State)
    (c : ncclResult_t) (d : Nat)
    (hin : (innermost s).1 = c) (hc : c ≠ K.ncclSuccess ∧ c ≠ K.ncclInProgress) :
    (nested K site final innermost d s).1 = c ∧
    (nested K site final innermost d s).2.log =
      (innermost s).2.log ++ (List.range d).map (fun k => traceLine (site k) c) ∧
    (nested K site final innermost d s).2.log.length = (innermost s).2.log.length + d ∧
    ((nested K site final innermost d s).2.log.length = (innermost s).2.log.length + 1 ↔
      d = 1) := by
  rw [nested_failure K site final innermost s c hin hc d]
  refine ⟨rfl, rfl, by simp, ?_⟩
  simp

/-- C12 as amended, worked example: three layers around a sub-operation that yields
`5` log three lines, innermost call site first. -/
theorem NCCLCHECK_nesting_logs_every_layer_witness :
    (nested ⟨0, 7, 2⟩ (fun k => ⟨"net.cc", 10 + k⟩) (fun _ => 0) (subOp 0 5) 3 State.start).2.log =
      [traceLine ⟨"net.cc", 10⟩ 5, traceLine ⟨"net.cc", 11⟩ 5, traceLine ⟨"net.cc", 12⟩ 5] :=
  (NCCLCHECK_nesting_logs_every_layer ⟨0, 7, 2⟩ (fun k => ⟨"net.cc", 10 + k⟩) (fun _ => 0)
    (subOp 0 5) State.start 5 3 rfl (by decide)).2.1

/-- C13, counterexample: with `ncclSuccess = 0` and `ncclSystemError = 2`, a worker
whose first step succeeds and whose second step fails stores to `(args)->ret`
twice, first `0` and then `2`: more than one write, and the value changes after
the first write. -/
theorem NCCLCHECKTHREAD_single_write_counterexample :
    (callFn (ncclCheckThreadSeq ⟨0, 7, 2⟩ (fun k => ⟨"group.cc", 40 + k⟩) 64 0 [0, 2]) 64
        State.start).2.retStores = [0, 2] ∧
    ¬ ((callFn (ncclCheckThreadSeq ⟨0, 7, 2⟩ (fun k => ⟨"group.cc", 40 + k⟩) 64 0 [0, 2]) 64
        State.start).2.retStores.length ≤ 1) := by
  have h := @runStmts_ncclCheckThreadSeq_fail Empty ⟨0, 7, 2⟩ (fun k => ⟨"group.cc", 40 + k⟩) 64
    [0] [] 2 (by decide) (by decide) 0 State.start
  simp only [List.singleton_append] at h
  simp only [callFn, h]
  exact ⟨rfl, by decide⟩

/-- C13, as amended: every executed `NCCLCHECKTHREAD` step stores its sub-result to
`(args)->ret`, so a run that executes `m` steps makes `m` writes, the values written
being the sub-results of the executed steps in order.  If no step fails, all steps
are executed and the field ends with the last sub-result.  If the first failure
`c` is at position `i`, the writes are the sub-results `0, ..., i` and the field
ends with `c`.  A failure code is terminal: for every list of sub-results the
values written form an initial part of the list in which every write that is
followed by another write stored `ncclSuccess` or `ncclInProgress`, so nothing is
written after a failure code. -/
theorem NCCLCHECKTHREAD_sequence_writes (K : ResultCodes) (site : Nat → SourceLoc)
    (args : Nat) (s : State) :
    (∀ (results : List ncclResult_t),
      (∀ r ∈ results, r = K.ncclSuccess ∨ r = K.ncclInProgress) →
      (callFn (ncclCheckThreadSeq K site args 0 results) args s).2.retStores =
        s.retStores ++ results ∧
      (callFn (ncclCheckThreadSeq K site args 0 results) args s).2.argsRet =
        results.getLast?.getD s.argsRet) ∧
    (∀ (results : List ncclResult_t) (i : Nat) (c : ncclResult_t),
      results[i]? = some c → (c ≠ K.ncclSuccess ∧ c ≠ K.ncclInProgress) →
      (∀ j r, j < i → results[j]? = some r → r = K.ncclSuccess ∨ r = K.ncclInProgress) →
      (callFn (ncclCheckThreadSeq K site args 0 results) args s).2.retStores =
        s.retStores ++ (results.take i ++ [c]) ∧
      (callFn (ncclCheckThreadSeq K site args 0 results) args s).2.argsRet = c) ∧
    (∀ (results : List ncclResult_t),
      ∃ written : List ncclResult_t,
        (callFn (ncclCheckThreadSeq K site args 0 results) args s).2.retStores =
          s.retStores ++ written ∧
        written = results.take written.length ∧
        (∀ j r, j + 1 < written.length → written[j]? = some r →
          r = K.ncclSuccess ∨ r = K.ncclInProgress)) := by
  refine ⟨?_, ?_, ?_⟩
  · intro results hall
    simp [callFn, @runStmts_ncclCheckThreadSeq_ok Empty K site args results hall 0 s]
  · intro results i c hi hc hbefore
    obtain ⟨hsplit, hlen⟩ := split_at_position results i c hi
    have hpre := all_before_position
      (fun r => r = K.ncclSuccess ∨ r = K.ncclInProgress) results i hbefore
    have hrun := @runStmts_ncclCheckThreadSeq_fail Empty K site args
      (results.take i) (results.drop (i + 1)) c hpre hc 0 s
    rw [← hsplit] at hrun
    simp [callFn, hrun]
  · intro results
    rcases first_failure_or_none K results with hall | ⟨pre, c, post, hsplit, hpre, hc⟩
    · refine ⟨results, ?_, by simp, ?_⟩
      · simp only [callFn, @runStmts_ncclCheckThreadSeq_ok Empty K site args results hall 0 s]
      · intro j r _ hjr
        exact hall r (List.getElem?_mem hjr)
    · refine ⟨pre ++ [c], ?_, ?_, ?_⟩
      · rw [hsplit]
        simp only [callFn, @runStmts_ncclCheckThreadSeq_fail Empty K site args pre post c
          hpre hc 0 s]
      · rw [hsplit]
        have e : pre ++ c :: post = (pre ++ [c]) ++ post := by simp
        rw [e, List.take_left' rfl]
      · intro j r hj hjr
        simp only [List.length_append, List.length_singleton] at hj
        have hjp : j < pre.length := by omega
        rw [List.getElem?_append_left hjp] at hjr
        exact hpre r (List.getElem?_mem hjr)

/-- C13 as amended, worked example: with `ncclSuccess = 0`, `ncclInProgress = 7`, a
worker whose steps would yield `0, 7, 2, 0` writes `0`, `7`, `2` and stops; the
field ends with the failure code `2`. -/
theorem NCCLCHECKTHREAD_sequence_writes_witness :
    (callFn (ncclCheckThreadSeq ⟨0, 7, 2⟩ (fun k => ⟨"group.cc", 40 + k⟩) 64 0 [0, 7, 2, 0]) 64
        State.start).2.retStores = [0, 7, 2] ∧
    (callFn (ncclCheckThreadSeq ⟨0, 7, 2⟩ (fun k => ⟨"group.cc", 40 + k⟩) 64 0 [0, 7, 2, 0]) 64
        State.start).2.argsRet = 2 :=
  (NCCLCHECKTHREAD_sequence_writes ⟨0, 7, 2⟩ (fun k => ⟨"group.cc", 40 + k⟩) 64
    State.start).2.1 [0, 7, 2, 0] 2 2 rfl (by decide)
    (by
      intro j r hj hjr
      interval_cases j
      · simp at hjr; subst hjr; exact Or.inl rfl
      · simp at hjr; subst hjr; exact Or.inr rfl)

/-- C14, counterexample: the one line `NCCLCHECK` logs for the terminal failure code
`5` is an `INFO` line, not a `WARN` line. -/
theorem failure_lines_all_warn_counterexample :
    (NCCLCHECK ⟨0, 7, 2⟩ ⟨"init.cc", 42⟩ (subOp 0 5) State.start :
        Ctl ncclResult_t Empty × State).2.log =
      [.INFO .NCCL_ALL "%s:%d -> %d" [.str "init.cc", .int 42, .int 5]] ∧
    (LogLine.INFO .NCCL_ALL "%s:%d -> %d" [.str "init.cc", .int 42, .int 5]).isWarn = false := by
  rw [@NCCLCHECK_subOp_fail Empty ⟨0, 7, 2⟩ ⟨"init.cc", 42⟩ 0 5 State.start (by decide)]
  exact ⟨rfl, rfl⟩

/-- C14, as amended: the line a check logs for a terminal failure is a `WARN` line
in `SYSCHECK`, `SYSCHECKGOTO`, `PTHREADCHECK` and `PTHREADCHECKGOTO`, and an `INFO`
line in `NEQCHECK`, `NEQCHECKGOTO`, `EQCHECK`, `EQCHECKGOTO`, `NCCLCHECK`,
`NCCLCHECKGOTO` (subsystem `NCCL_ALL`) and `NCCLCHECKTHREAD` (subsystem `NCCL_INIT`).
`INFO` is therefore used for the retry notices of `SYSCHECKSYNC` and for these
back-trace lines.  Each part names the lines the check adds to the log on its
failure path; the first part gives the severity of each kind of line. -/
theorem failure_line_severities {ρ L : Type} (E : ErrnoCodes) (K : ResultCodes)
    (loc : SourceLoc) (name : String) (label : L) (args : Nat) (value : Int) (s : State) :
    ((∀ e, (failedLine name e).isWarn = true) ∧
      (∀ e, (retryLine name e).isInfo = true ∧ (retryLine name e).isWarn = false) ∧
      (∀ c e, (assertLine loc c e).isInfo = true ∧ (assertLine loc c e).isWarn = false) ∧
      (∀ c, (traceLine loc c).isInfo = true ∧ (traceLine loc c).isWarn = false) ∧
      (∀ c, (asyncLine loc c).isInfo = true ∧ (asyncLine loc c).isWarn = false)) ∧
    (∀ (outs : Nat → Outcome) (n fuel : Nat), n < fuel →
      (∀ j, j < n → retryOutcome E (outs (s.evals.length + j))) →
      ¬ retryOutcome E (outs (s.evals.length + n)) →
      (outs (s.evals.length + n)).retval = -1 →
      (∃ s1, SYSCHECK E K (scripted outs) name fuel s =
          some ((.ret K.ncclSystemError : Ctl ncclResult_t L), s1) ∧
        s1.log = s.log ++
          ((List.range' s.evals.length n).map fun k => retryLine name (outs k).errno) ++
          [failedLine name (outs (s.evals.length + n)).errno]) ∧
      (∃ s1, SYSCHECKGOTO E K (scripted outs) name label fuel s =
          some ((.goto label : Ctl ρ L), s1) ∧
        s1.log = s.log ++
          ((List.range' s.evals.length n).map fun k => retryLine name (outs k).errno) ++
          [failedLine name (outs (s.evals.length + n)).errno])) ∧
    (∀ (statement : Expr Int), (statement s).1 ≠ 0 →
      (PTHREADCHECK K statement name s : Ctl ncclResult_t L × State).2.log =
        (statement s).2.log ++ [failedLine name (statement s).1] ∧
      (PTHREADCHECKGOTO K statement name label s : Ctl ρ L × State).2.log =
        (statement s).2.log ++ [failedLine name (statement s).1]) ∧
    (∀ (statement : Expr Int), (statement s).1 ≠ value →
      (NEQCHECK K loc statement value s : Ctl ncclResult_t L × State).2.log =
        (statement s).2.log ++ [assertLine loc K.ncclSystemError (statement s).2.errno] ∧
      (NEQCHECKGOTO K loc statement value label s : Ctl ρ L × State).2.log =
        (statement s).2.log ++ [assertLine loc K.ncclSystemError (statement s).2.errno]) ∧
    (∀ (statement : Expr Int), (statement s).1 = value →
      (EQCHECK K loc statement value s : Ctl ncclResult_t L × State).2.log =
        (statement s).2.log ++ [assertLine loc K.ncclSystemError (statement s).2.errno] ∧
      (EQCHECKGOTO K loc statement value label s : Ctl ρ L × State).2.log =
        (statement s).2.log ++ [assertLine loc K.ncclSystemError (statement s).2.errno]) ∧
    (∀ (call : Expr ncclResult_t),
      ((call s).1 ≠ K.ncclSuccess ∧ (call s).1 ≠ K.ncclInProgress) →
      (NCCLCHECK K loc call s : Ctl ncclResult_t L × State).2.log =
        (call s).2.log ++ [traceLine loc (call s).1] ∧
      (NCCLCHECKGOTO K loc call label s : Ctl ρ L × State).2.log =
        (call s).2.log ++ [traceLine loc (call s).1] ∧
      (NCCLCHECKTHREAD K loc call args s : Ctl Nat L × State).2.log =
        (call s).2.log ++ [asyncLine loc (call s).1]) := by
  refine ⟨⟨fun _ => rfl, fun _ => ⟨rfl, rfl⟩, fun _ _ => ⟨rfl, rfl⟩, fun _ => ⟨rfl, rfl⟩,
    fun _ => ⟨rfl, rfl⟩⟩, ?_, ?_, ?_, ?_, ?_⟩
  · intro outs n fuel hf hretry hlast hfail
    constructor
    · rw [SYSCHECK_scripted E K name outs n fuel s hf
        (retry_window E outs s.evals.length n hretry) hlast, if_pos hfail]
      exact ⟨_, rfl, rfl⟩
    · rw [SYSCHECKGOTO_scripted E K name label outs n fuel s hf
        (retry_window E outs s.evals.length n hretry) hlast, if_pos hfail]
      exact ⟨_, rfl, rfl⟩
  · intro statement h
    constructor
    · simp only [PTHREADCHECK, if_pos h, State.emit, failedLine]
    · simp only [PTHREADCHECKGOTO, if_pos h, State.emit, State.setRES, failedLine]
  · intro statement h
    constructor
    · simp only [NEQCHECK, if_pos h, State.emit, traceErrnoArgs, assertLine]
    · simp only [NEQCHECKGOTO, if_pos h, State.emit, State.setRES, traceErrnoArgs, assertLine]
  · intro statement h
    constructor
    · simp only [EQCHECK, if_pos h, State.emit, traceErrnoArgs, assertLine]
    · simp only [EQCHECKGOTO, if_pos h, State.emit, State.setRES, traceErrnoArgs, assertLine]
  · intro call h
    refine ⟨?_, ?_, ?_⟩
    · simp only [NCCLCHECK, if_pos h, State.emit, traceArgs, traceLine]
    · simp only [NCCLCHECKGOTO, State.setRES, if_pos h, State.emit, traceArgs, traceLine]
    · simp only [NCCLCHECKTHREAD, State.storeRet, if_pos h, State.emit, traceArgs, asyncLine]

/-- C14 as amended, worked example: an `mmap` that returns the sentinel `-1` fails
`EQCHECK(mmap, -1)`, and the one line logged for that terminal failure is the `INFO`
back-trace line. -/
theorem failure_line_severities_witness :
    (EQCHECK ⟨0, 7, 2⟩ ⟨"shm.cc", 12⟩ (scripted fun _ => ⟨-1, 12⟩) (-1) State.start :
        Ctl ncclResult_t Unit × State).2.log = [assertLine ⟨"shm.cc", 12⟩ 2 12] ∧
    (EQCHECKGOTO ⟨0, 7, 2⟩ ⟨"shm.cc", 12⟩ (scripted fun _ => ⟨-1, 12⟩) (-1) () State.start :
        Ctl ncclResult_t Unit × State).2.log = [assertLine ⟨"shm.cc", 12⟩ 2 12] :=
  (@failure_line_severities ncclResult_t Unit ⟨4, 11, 11⟩ ⟨0, 7, 2⟩ ⟨"shm.cc", 12⟩ "mmap" () 64
    (-1) State.start).2.2.2.2.1 (scripted fun _ => ⟨-1, 12⟩) rfl

/-- C15: `SYSCHECK` around a statement whose first evaluation returns a value `v`
other than `-1` (any other value, negative ones included) and leaves any value `e`
in `errno` (a stale `EINTR`, `EWOULDBLOCK` or `EAGAIN` included): given room for
one iteration the check finishes and falls through, the statement has been
evaluated exactly once and the log is unchanged.  Hence two such evaluations
that differ only in `errno` give the same control outcome, the same log and the
same number of evaluations. -/
theorem SYSCHECK_return_value_decides {L : Type} (E : ErrnoCodes) (K : ResultCodes)
    (name : String) (outs : Nat → Outcome) (v e : Int) (fuel : Nat) (s : State)
    (hfuel : 0 < fuel) (hfirst : outs s.evals.length = ⟨v, e⟩) (hv : v ≠ -1) :
    SYSCHECK E K (scripted outs) name fuel s =
      some ((.next : Ctl ncclResult_t L),
        { s with errno := e, evals := s.evals ++ [s.evals.length] }) ∧
    (∀ e2 : Int,
      (SYSCHECK E K (scripted fun _ => ⟨v, e2⟩) name fuel s :
          Option (Ctl ncclResult_t L × State)).map (fun r => (r.1, r.2.log, r.2.evals)) =
        (SYSCHECK E K (scripted outs) name fuel s :
          Option (Ctl ncclResult_t L × State)).map (fun r => (r.1, r.2.log, r.2.evals))) := by
  have key : ∀ (o : Nat → Outcome) (e1 : Int), o s.evals.length = ⟨v, e1⟩ →
      SYSCHECK E K (scripted o) name fuel s =
        some ((.next : Ctl ncclResult_t L),
          { s with errno := e1, evals := s.evals ++ [s.evals.length] }) := by
    intro o e1 ho
    have hlast : ¬ retryOutcome E (o (s.evals.length + 0)) := by
      rw [Nat.add_zero, ho]; exact fun h => hv h.1
    have hval : ¬ (o (s.evals.length + 0)).retval = -1 := by
      rw [Nat.add_zero, ho]; exact hv
    rw [SYSCHECK_scripted E K name o 0 fuel s hfuel (fun k h1 h2 => by omega) hlast,
      if_neg hval]
    simp [ho]
  refine ⟨key outs e hfirst, ?_⟩
  intro e2
  rw [key outs e hfirst, key (fun _ => ⟨v, e2⟩) e2 rfl]
  rfl

/-- C15, worked example: with the Linux `errno` values, a call that returns `-2`
while `errno` holds a stale `EAGAIN = 11` is evaluated once, nothing is logged and
the check falls through. -/
theorem SYSCHECK_return_value_decides_witness :
    SYSCHECK ⟨4, 11, 11⟩ ⟨0, 7, 2⟩ (scripted fun _ => ⟨-2, 11⟩) "poll" 1 State.start =
      some ((.next : Ctl ncclResult_t Empty), { State.start with errno := 11, evals := [0] }) :=
  (SYSCHECK_return_value_decides ⟨4, 11, 11⟩ ⟨0, 7, 2⟩ "poll" (fun _ => ⟨-2, 11⟩) (-2) 11 1
    State.start (by decide) rfl (by decide)).1

/-- C16: the loop of `SYSCHECKSYNC` has no retry bound of its own and ends exactly
when an outcome other than (`-1`, transient `errno`) occurs.  The iteration bound
of the embedding only measures how long the loop is observed.  If the outcomes
from the current evaluation on contain one that is not of the retry form, and `n`
is the index of the first such outcome, the loop finishes for every bound above
`n`, always with the same result, after `n + 1` evaluations.  Conversely a loop
that has finished within a bound has met such an outcome.  Around a statement
that yields (`-1`, `EAGAIN`) forever the loop has not finished after `N`
iterations, for every `N`.  And for every `n` there is a statement that is
retried exactly `n` times. -/
theorem SYSCHECKSYNC_terminates_iff_non_transient (E : ErrnoCodes) (name : String) (s : State) :
    (∀ (outs : Nat → Outcome), (∃ m, ¬ retryOutcome E (outs (s.evals.length + m))) →
      ∃ n, (∀ j, j < n → retryOutcome E (outs (s.evals.length + j))) ∧
        ¬ retryOutcome E (outs (s.evals.length + n)) ∧
        ∀ fuel, n < fuel →
          SYSCHECKSYNC E (scripted outs) name fuel s =
            some ((outs (s.evals.length + n)).retval,
              { s with errno := (outs (s.evals.length + n)).errno,
                       evals := s.evals ++ List.range' s.evals.length (n + 1),
                       log := s.log ++
                         (List.range' s.evals.length n).map
                           fun k => retryLine name (outs k).errno })) ∧
    (∀ (outs : Nat → Outcome) (fuel : Nat) (r : Int × State),
      SYSCHECKSYNC E (scripted outs) name fuel s = some r →
      ∃ n, n < fuel ∧ ¬ retryOutcome E (outs (s.evals.length + n))) ∧
    (∀ N : Nat, SYSCHECKSYNC E (scripted fun _ => ⟨-1, E.EAGAIN⟩) name N s = none) ∧
    (∀ n : Nat, ∃ r : Int × State,
      SYSCHECKSYNC E (scripted fun k => if k < s.evals.length + n then ⟨-1, E.EAGAIN⟩ else ⟨0, 0⟩)
        name (n + 1) s = some r ∧
      r.2.log.length = s.log.length + n ∧ r.2.evals.length = s.evals.length + (n + 1)) := by
  refine ⟨?_, ?_, ?_, ?_⟩
  · intro outs hex
    classical
    refine ⟨Nat.find hex, fun j hj => ?_, Nat.find_spec hex, fun fuel hf => ?_⟩
    · exact not_not.mp (Nat.find_min hex hj)
    · exact SYSCHECKSYNC_scripted E name outs (Nat.find hex) fuel s hf
        (retry_window E outs s.evals.length (Nat.find hex)
          (fun j hj => not_not.mp (Nat.find_min hex hj)))
        (Nat.find_spec hex)
  · intro outs fuel r h
    obtain ⟨n, hn, hlast, _⟩ := SYSCHECKSYNC_finished_index E name outs fuel s r h
    exact ⟨n, hn, hlast⟩
  · intro N
    exact SYSCHECKSYNC_spins E name (fun _ => ⟨-1, E.EAGAIN⟩)
      (fun _ => ⟨rfl, Or.inr (Or.inr rfl)⟩) N s
  · intro n
    refine ⟨_, SYSCHECKSYNC_scripted E name
      (fun k => if k < s.evals.length + n then ⟨-1, E.EAGAIN⟩ else ⟨0, 0⟩) n (n + 1) s
      (Nat.lt_succ_self n) ?_ ?_, ?_, ?_⟩
    · intro k _ hk2
      simp only [if_pos hk2]
      exact ⟨rfl, Or.inr (Or.inr rfl)⟩
    · simp only [Nat.lt_irrefl, if_false]
      intro h
      exact absurd h.1 (by decide)
    · simp
    · simp

/-- C16, worked example: with the Linux `errno` values, around a statement that
fails with `EAGAIN` on every evaluation the loop has not finished after `1000`
iterations. -/
theorem SYSCHECKSYNC_terminates_iff_non_transient_witness :
    SYSCHECKSYNC ⟨4, 11, 11⟩ (scripted fun _ => ⟨-1, 11⟩) "recv" 1000 State.start = none :=
  (SYSCHECKSYNC_terminates_iff_non_transient ⟨4, 11, 11⟩ "recv" State.start).2.2.1 1000

/-- C17: `PTHREADCHECK` does not read `errno`.  For every return value `r`, every two
values `a1`, `a2` of `errno` before the call and every two values `e1`, `e2` the
call leaves in `errno`, the two runs give the same control outcome and the same
log.  The outcome is fall-through with an unchanged log when `r` is `0`, and
`return ncclSystemError` with the one `WARN` line carrying `strerror(r)` otherwise:
the logged description is computed from `r`. -/
theorem PTHREADCHECK_ignores_errno {L : Type} (K : ResultCodes) (name : String) (r : Int)
    (a1 a2 e1 e2 : Int) (s : State) :
    (PTHREADCHECK K (scripted fun _ => ⟨r, e1⟩) name { s with errno := a1 } :
        Ctl ncclResult_t L × State).1 =
      (PTHREADCHECK K (scripted fun _ => ⟨r, e2⟩) name { s with errno := a2 } :
        Ctl ncclResult_t L × State).1 ∧
    (PTHREADCHECK K (scripted fun _ => ⟨r, e1⟩) name { s with errno := a1 } :
        Ctl ncclResult_t L × State).2.log =
      (PTHREADCHECK K (scripted fun _ => ⟨r, e2⟩) name { s with errno := a2 } :
        Ctl ncclResult_t L × State).2.log ∧
    (r = 0 →
      (PTHREADCHECK K (scripted fun _ => ⟨r, e1⟩) name { s with errno := a1 } :
          Ctl ncclResult_t L × State).1 = .next ∧
      (PTHREADCHECK K (scripted fun _ => ⟨r, e1⟩) name { s with errno := a1 } :
          Ctl ncclResult_t L × State).2.log = s.log) ∧
    (r ≠ 0 →
      (PTHREADCHECK K (scripted fun _ => ⟨r, e1⟩) name { s with errno := a1 } :
          Ctl ncclResult_t L × State).1 = .ret K.ncclSystemError ∧
      (PTHREADCHECK K (scripted fun _ => ⟨r, e1⟩) name { s with errno := a1 } :
          Ctl ncclResult_t L × State).2.log =
        s.log ++ [.WARN ("Call to " ++ name ++ " failed: %s") [.strerror r]]) := by
  by_cases h : r = 0
  · have hn : ¬ r ≠ 0 := by simp [h]
    simp [PTHREADCHECK, scripted, if_neg hn, h]
  · have hp : r ≠ 0 := h
    simp [PTHREADCHECK, scripted, if_pos hp, State.emit, h]

/-- C17, worked example: a `pthread_mutex_lock` that returns `22` logs
`strerror(22)` and returns `ncclSystemError` whether `errno` holds `0` or a stale
`EINTR = 4`. -/
theorem PTHREADCHECK_ignores_errno_witness :
    (PTHREADCHECK ⟨0, 7, 2⟩ (scripted fun _ => ⟨22, 4⟩) "pthread_mutex_lock"
        { State.start with errno := 4 } : Ctl ncclResult_t Empty × State).1 = .ret 2 ∧
    (PTHREADCHECK ⟨0, 7, 2⟩ (scripted fun _ => ⟨22, 4⟩) "pthread_mutex_lock"
        { State.start with errno := 4 } : Ctl ncclResult_t Empty × State).2.log =
      [.WARN "Call to pthread_mutex_lock failed: %s" [.strerror 22]] :=
  (PTHREADCHECK_ignores_errno ⟨0, 7, 2⟩ "pthread_mutex_lock" 22 4 0 4 0 State.start).2.2.2
    (by decide)

/-- C18: the effect of the goto-style checks on `RES`.  After `NCCLCHECKGOTO` the
value of `RES` is the sub-result, whatever `RES` held before and whether or not
the sub-result is a failure: a prior failure code in `RES` is replaced by
`ncclSuccess` or `ncclInProgress` when the step yields one of them.
`SYSCHECKGOTO`, `PTHREADCHECKGOTO`, `NEQCHECKGOTO` and `EQCHECKGOTO` leave `RES` as it
was when they fall through and hold `ncclSystemError` in `RES` when they jump. -/
theorem goto_checks_effect_on_RES {ρ L : Type} (E : ErrnoCodes) (K : ResultCodes)
    (loc : SourceLoc) (name : String) (label : L) (value : Int) (s : State) :
    (∀ (p r : ncclResult_t) (i : Nat),
      (NCCLCHECKGOTO K loc (subOp i r) label { s with RES := p } : Ctl ρ L × State).2.RES = r) ∧
    (∀ (call : Expr ncclResult_t),
      (NCCLCHECKGOTO K loc call label s : Ctl ρ L × State).2.RES = (call s).1) ∧
    (∀ (outs : Nat → Outcome) (n fuel : Nat), n < fuel →
      (∀ j, j < n → retryOutcome E (outs (s.evals.length + j))) →
      ¬ retryOutcome E (outs (s.evals.length + n)) →
      ∃ c s1, SYSCHECKGOTO E K (scripted outs) name label fuel s = some ((c : Ctl ρ L), s1) ∧
        (c = .next ∧ s1.RES = s.RES ∧ (outs (s.evals.length + n)).retval ≠ -1 ∨
          c = .goto label ∧ s1.RES = K.ncclSystemError ∧
            (outs (s.evals.length + n)).retval = -1)) ∧
    (∀ (o : Outcome),
      ((PTHREADCHECKGOTO K (scripted fun _ => o) name label s : Ctl ρ L × State).1 = .next ∧
        (PTHREADCHECKGOTO K (scripted fun _ => o) name label s : Ctl ρ L × State).2.RES = s.RES ∧
        o.retval = 0) ∨
      ((PTHREADCHECKGOTO K (scripted fun _ => o) name label s : Ctl ρ L × State).1 = .goto label ∧
        (PTHREADCHECKGOTO K (scripted fun _ => o) name label s : Ctl ρ L × State).2.RES =
          K.ncclSystemError ∧
        o.retval ≠ 0)) ∧
    (∀ (o : Outcome),
      ((NEQCHECKGOTO K loc (scripted fun _ => o) value label s : Ctl ρ L × State).1 = .next ∧
        (NEQCHECKGOTO K loc (scripted fun _ => o) value label s : Ctl ρ L × State).2.RES = s.RES ∧
        o.retval = value) ∨
      ((NEQCHECKGOTO K loc (scripted fun _ => o) value label s : Ctl ρ L × State).1 =
          .goto label ∧
        (NEQCHECKGOTO K loc (scripted fun _ => o) value label s : Ctl ρ L × State).2.RES =
          K.ncclSystemError ∧
        o.retval ≠ value)) ∧
    (∀ (o : Outcome),
      ((EQCHECKGOTO K loc (scripted fun _ => o) value label s : Ctl ρ L × State).1 = .next ∧
        (EQCHECKGOTO K loc (scripted fun _ => o) value label s : Ctl ρ L × State).2.RES = s.RES ∧
        o.retval ≠ value) ∨
      ((EQCHECKGOTO K loc (scripted fun _ => o) value label s : Ctl ρ L × State).1 =
          .goto label ∧
        (EQCHECKGOTO K loc (scripted fun _ => o) value label s : Ctl ρ L × State).2.RES =
          K.ncclSystemError ∧
        o.retval = value)) := by
  refine ⟨?_, ?_, ?_, ?_, ?_, ?_⟩
  · intro p r i
    simp only [NCCLCHECKGOTO, subOp, State.setRES]
    split <;> rfl
  · intro call
    simp only [NCCLCHECKGOTO, State.setRES]
    split <;> rfl
  · intro outs n fuel hf hretry hlast
    rw [SYSCHECKGOTO_scripted E K name label outs n fuel s hf
      (retry_window E outs s.evals.length n hretry) hlast]
    by_cases hv : (outs (s.evals.length + n)).retval = -1
    · rw [if_pos hv]
      exact ⟨_, _, rfl, Or.inr ⟨rfl, rfl, hv⟩⟩
    · rw [if_neg hv]
      exact ⟨_, _, rfl, Or.inl ⟨rfl, rfl, hv⟩⟩
  · intro o
    by_cases h : o.retval = 0
    · have hn : ¬ o.retval ≠ 0 := by simp [h]
      exact Or.inl (by simp [PTHREADCHECKGOTO, scripted, if_neg hn, h])
    · have hp : o.retval ≠ 0 := h
      exact Or.inr (by simp [PTHREADCHECKGOTO, scripted, if_pos hp, State.emit, State.setRES, h])
  · intro o
    by_cases h : o.retval = value
    · have hn : ¬ o.retval ≠ value := by simp [h]
      exact Or.inl (by simp [NEQCHECKGOTO, scripted, if_neg hn, h])
    · have hp : o.retval ≠ value := h
      exact Or.inr (by simp [NEQCHECKGOTO, scripted, if_pos hp, State.emit, State.setRES, h])
  · intro o
    by_cases h : o.retval = value
    · exact Or.inr (by simp [EQCHECKGOTO, scripted, if_pos h, State.emit, State.setRES, h])
    · exact Or.inl (by simp [EQCHECKGOTO, scripted, if_neg h, h])

/-- C18, worked example: with `ncclSuccess = 0` and `ncclSystemError = 2`, a step
`NCCLCHECKGOTO` whose sub-operation yields `0` while `RES` holds the failure code `2`
leaves `RES = 0`. -/
theorem goto_checks_effect_on_RES_witness :
    (NCCLCHECKGOTO ⟨0, 7, 2⟩ ⟨"init.cc", 42⟩ (subOp 0 0) () { State.start with RES := 2 } :
        Ctl ncclResult_t Unit × State).2.RES = 0 :=
  (@goto_checks_effect_on_RES ncclResult_t Unit ⟨4, 11, 11⟩ ⟨0, 7, 2⟩ ⟨"init.cc", 42⟩ "recv" ()
    (-1) State.start).1 2 0 0

/-- C19: `SYSCHECKGOTO` is the goto-style counterpart of `SYSCHECK`.  For every wrapped
statement, state and iteration bound, the two checks run the same loop and then
agree: both are still looping; or the loop ended with a `retval` other than `-1`
and both fall through in the very same state (`RES` untouched); or the loop ended
with `retval == -1`, `SYSCHECK` makes the function return `ncclSystemError` and
`SYSCHECKGOTO` jumps to the label in the state `SYSCHECK` ends in with
`ncclSystemError` assigned to `RES`, so the evaluations and the logged lines are
the same.  For a statement that is retried `n` times and then ends the loop, both
checks finish within every bound above `n`, with `n + 1` evaluations and equal
logs. -/
theorem SYSCHECKGOTO_matches_SYSCHECK {ρ L : Type} (E : ErrnoCodes) (K : ResultCodes)
    (name : String) (label : L) :
    (∀ (statement : Expr Int) (fuel : Nat) (s : State),
      (SYSCHECKSYNC E statement name fuel s = none ∧
        (SYSCHECK E K statement name fuel s : Option (Ctl ncclResult_t L × State)) = none ∧
        (SYSCHECKGOTO E K statement name label fuel s : Option (Ctl ρ L × State)) = none) ∨
      (∃ v s1, SYSCHECKSYNC E statement name fuel s = some (v, s1) ∧ v ≠ -1 ∧
        SYSCHECK E K statement name fuel s = some ((.next : Ctl ncclResult_t L), s1) ∧
        SYSCHECKGOTO E K statement name label fuel s = some ((.next : Ctl ρ L), s1)) ∨
      (∃ s1 s2, SYSCHECKSYNC E statement name fuel s = some (-1, s1) ∧
        s2 = { s1 with log := s1.log ++ [failedLine name s1.errno] } ∧
        SYSCHECK E K statement name fuel s =
          some ((.ret K.ncclSystemError : Ctl ncclResult_t L), s2) ∧
        SYSCHECKGOTO E K statement name label fuel s =
          some ((.goto label : Ctl ρ L), { s2 with RES := K.ncclSystemError }))) ∧
    (∀ (outs : Nat → Outcome) (n fuel : Nat) (s : State), n < fuel →
      (∀ j, j < n → retryOutcome E (outs (s.evals.length + j))) →
      ¬ retryOutcome E (outs (s.evals.length + n)) →
      ∃ c1 s1 c2 s2,
        SYSCHECK E K (scripted outs) name fuel s = some ((c1 : Ctl ncclResult_t L), s1) ∧
        SYSCHECKGOTO E K (scripted outs) name label fuel s = some ((c2 : Ctl ρ L), s2) ∧
        s1.evals = s.evals ++ List.range' s.evals.length (n + 1) ∧
        s2.evals = s1.evals ∧ s2.log = s1.log ∧
        (c1 = .next ∧ c2 = .next ∧ s2.RES = s.RES ∧
            (outs (s.evals.length + n)).retval ≠ -1 ∨
          c1 = .ret K.ncclSystemError ∧ c2 = .goto label ∧ s2.RES = K.ncclSystemError ∧
            (outs (s.evals.length + n)).retval = -1)) := by
  constructor
  · intro statement fuel s
    cases hsync : SYSCHECKSYNC E statement name fuel s with
    | none =>
      exact Or.inl ⟨rfl, by simp only [SYSCHECK, hsync], by simp only [SYSCHECKGOTO, hsync]⟩
    | some r =>
      obtain ⟨v, s1⟩ := r
      by_cases hv : v = -1
      · subst hv
        refine Or.inr (Or.inr ⟨s1, _, rfl, rfl, ?_, ?_⟩)
        · simp only [SYSCHECK, hsync, State.emit, failedLine, if_true]
        · simp only [SYSCHECKGOTO, hsync, State.emit, State.setRES, failedLine, if_true]
      · refine Or.inr (Or.inl ⟨v, s1, rfl, hv, ?_, ?_⟩)
        · simp only [SYSCHECK, hsync, if_neg hv]
        · simp only [SYSCHECKGOTO, hsync, if_neg hv]
  · intro outs n fuel s hf hretry hlast
    rw [SYSCHECK_scripted E K name outs n fuel s hf
      (retry_window E outs s.evals.length n hretry) hlast,
      SYSCHECKGOTO_scripted E K name label outs n fuel s hf
      (retry_window E outs s.evals.length n hretry) hlast]
    by_cases hv : (outs (s.evals.length + n)).retval = -1
    · rw [if_pos hv, if_pos hv]
      exact ⟨_, _, _, _, rfl, rfl, rfl, rfl, rfl, Or.inr ⟨rfl, rfl, rfl, hv⟩⟩
    · rw [if_neg hv, if_neg hv]
      exact ⟨_, _, _, _, rfl, rfl, rfl, rfl, rfl, Or.inl ⟨rfl, rfl, rfl, hv⟩⟩

/-- C19, worked example: with the Linux `errno` values, around a `connect` that fails
once with `EINTR = 4` and then with `ECONNREFUSED = 111`, `SYSCHECK` returns
`ncclSystemError` (here `2`) and `SYSCHECKGOTO` jumps with `RES = 2`; both have
evaluated the statement twice and logged the same retry notice and warning. -/
theorem SYSCHECKGOTO_matches_SYSCHECK_witness :
    ∃ c1 s1 c2 s2,
      SYSCHECK ⟨4, 11, 11⟩ ⟨0, 7, 2⟩
          (scripted fun k => if k = 0 then ⟨-1, 4⟩ else ⟨-1, 111⟩) "connect" 2 State.start =
        some ((c1 : Ctl ncclResult_t Unit), s1) ∧
      SYSCHECKGOTO ⟨4, 11, 11⟩ ⟨0, 7, 2⟩
          (scripted fun k => if k = 0 then ⟨-1, 4⟩ else ⟨-1, 111⟩) "connect" () 2 State.start =
        some ((c2 : Ctl ncclResult_t Unit), s2) ∧
      s1.evals = [0, 1] ∧ s2.evals = s1.evals ∧ s2.log = s1.log ∧
      (c1 = .next ∧ c2 = .next ∧ s2.RES = 0 ∧ (-1 : Int) ≠ -1 ∨
        c1 = .ret 2 ∧ c2 = .goto () ∧ s2.RES = 2 ∧ (-1 : Int) = -1) :=
  (@SYSCHECKGOTO_matches_SYSCHECK ncclResult_t Unit ⟨4, 11, 11⟩ ⟨0, 7, 2⟩ "connect" ()).2
    (fun k => if k = 0 then ⟨-1, 4⟩ else ⟨-1, 111⟩) 1 2 State.start (by decide)
    (by intro j hj; interval_cases j; decide) (by decide)

end NcclChecks
